import Mathlib

/-!
Multi-tenant rules manager (`pkg/ruler/manager.go`)

A shallow embedding of `DefaultMultiTenantManager` and of the operations that
reconcile a tenant-to-rule-groups map with the per-tenant rule engines.

Modelling conventions.

* A Go `map[string]V` is an association list read through `GoMap.get` (first
  binding wins); `GoMap.set` and `GoMap.delete` leave at most one binding for the
  key they touch, `GoMap.keys` lists every key once and `GoMap.len` counts keys.
  Every list therefore denotes a Go map and no well-formedness side condition
  is needed.
* External collaborators (rule mapper, engines, notifiers) are opaque in the
  source.  Their *results* are supplied by an `Oracle`, the *calls* made on
  them are recorded: the mapper as a call log, an engine as the record of the
  `Run` and `Update` calls it received.
* The bounded-parallel fan-out is modelled sequentially, tenants being taken in
  the order of `GoMap.keys`; context cancellation is the number of jobs the
  fan-out starts before it observes the cancellation.
-/

namespace Ruler

/-! ## Go maps -/

/-- A Go `map[string]V`. -/
abbrev GoMap (V : Type) := List (String × V)

namespace GoMap

variable {V : Type}

/-- The read `m[k]` with its presence bit: `v, ok := m[k]`. -/
def get : GoMap V → String → Option V
  | [], _ => none
  | (k', v) :: m, k => if k' = k then some v else get m k

/-- The presence test `_, ok := m[k]`. -/
def has (m : GoMap V) (k : String) : Bool := (get m k).isSome

/-- The statement `delete(m, k)`. -/
def delete (m : GoMap V) (k : String) : GoMap V := m.filter (fun kv => decide (kv.1 ≠ k))

/-- The assignment `m[k] = v`. -/
def set (m : GoMap V) (k : String) (v : V) : GoMap V := (k, v) :: delete m k

/-- The keys visited by `for k := range m`, each once. -/
def keys (m : GoMap V) : List String := (m.map Prod.fst).dedup

/-- The builtin `len(m)`. -/
def len (m : GoMap V) : Nat := (keys m).length

end GoMap

/-! ## Data model -/

/-- A rule group as stored by the rule source (`rulespb.RuleGroupDesc`); only
the fields read by the manager are kept. -/
structure RuleGroupDesc where
  Name : String
  Namespace : String
  SourceTenants : List String
  deriving DecidableEq, Repr

/-- The type `rulespb.RuleGroupList`. -/
abbrev RuleGroupList := List RuleGroupDesc

/-- A call received by the rule mapper. -/
inductive MapperCall where
  | MapRules (user : String) (groups : RuleGroupList)
  | cleanupUser (user : String)
  deriving DecidableEq, Repr

/-- A tenant engine (`RulesManager`), seen through the calls made on it. -/
structure RulesManager where
  /-- Tenant the factory bound the engine to. -/
  user : String
  /-- Number of times `Run()` was scheduled (`go mngr.Run()`). -/
  runs : Nat
  /-- File sets handed to `Update`, most recent first. -/
  updates : List (List String)
  deriving DecidableEq, Repr

/-- A discovery entry, `alertmanagerdiscovery.NewDiscoveryConfig(address)`. -/
structure DiscoveryConfig where
  address : String
  deriving DecidableEq, Repr

/-- The notifier configuration built from the discovery entries. -/
structure NotifierConfig where
  alertmanagers : List String
  deriving DecidableEq, Repr

/-- A tenant notifier (`rulerNotifier`): the configurations applied to it,
most recent first. -/
structure rulerNotifier where
  applied : List NotifierConfig
  deriving DecidableEq, Repr

/-- An alertmanager ring member (`servicediscovery.Instance`). -/
structure Instance where
  Address : String
  InUse : Bool
  deriving DecidableEq, Repr

/-- The state of `DefaultMultiTenantManager`. -/
structure DefaultMultiTenantManager where
  /-- The setting `cfg.TenantFederation.Enabled`. -/
  federationEnabled : Bool
  alertmanagerHTTPPrefix : String
  discoveryConfigs : GoMap DiscoveryConfig
  notifierCfg : NotifierConfig
  notifiers : GoMap rulerNotifier
  /-- Calls received by `r.mapper`, most recent first. -/
  mapper : List MapperCall
  userManagers : GoMap RulesManager
  /-- Tenants with a registry in `userManagerMetrics`. -/
  userManagerMetrics : GoMap Unit
  managersTotal : Nat
  lastReloadSuccessful : GoMap Nat
  lastReloadSuccessfulTimestamp : GoMap Nat
  configUpdatesTotal : GoMap Nat
  rulerIsRunning : Bool
  /-- Engines on which `Stop()` was scheduled, most recent first. -/
  stopped : List RulesManager
  deriving DecidableEq, Repr

/-- Results returned by the collaborators during one call of the manager. -/
structure Oracle where
  /-- Result of `mapper.MapRules(user, groups.Formatted())`: `none` is an
  error, `some (update, files)` a success. -/
  MapRules : String → RuleGroupList → Option (Bool × List String)
  /-- Whether `applyConfig` succeeds on the notifier of the tenant. -/
  applyConfig : String → NotifierConfig → Bool
  /-- Whether `manager.Update` succeeds for the tenant and file set. -/
  Update : String → List String → Bool
  /-- Result of `buildNotifierConfig`: `none` is an error. -/
  buildNotifierConfig : GoMap DiscoveryConfig → Option NotifierConfig
  /-- Wall-clock time stamped by `SetToCurrentTime`. -/
  now : Nat

/-- Errors travelling through the fan-out. -/
inductive Error where
  | contextCanceled
  | job (msg : String)
  deriving DecidableEq, Repr

/-- A `context.Context`: `canceledAfter = some k` means the fan-out observes
the cancellation after having started `k` jobs, `none` that it never does. -/
structure Context where
  canceledAfter : Option Nat
  deriving DecidableEq, Repr

/-! ## Alertmanager discovery -/

/-- The constructor `alertmanagerdiscovery.NewDiscoveryConfig`. -/
def NewDiscoveryConfig (address : String) : DiscoveryConfig := ⟨address⟩

/-- The method `alertManagerHTTPAddress`. -/
def alertManagerHTTPAddress (r : DefaultMultiTenantManager) (inst : Instance) : String :=
  "http://" ++ inst.Address ++ r.alertmanagerHTTPPrefix

/-- The method `updateNotifierConfig`: rebuild the notifier configuration and
apply it to every notifier; a build failure leaves everything as it was, an
apply failure leaves that notifier as it was. -/
def updateNotifierConfig (o : Oracle) (r : DefaultMultiTenantManager) : DefaultMultiTenantManager :=
  match o.buildNotifierConfig r.discoveryConfigs with
  | none => r
  | some ncfg =>
    { r with
      notifierCfg := ncfg
      notifiers := r.notifiers.map (fun kv =>
        if o.applyConfig kv.1 ncfg then (kv.1, { applied := ncfg :: kv.2.applied }) else kv) }

/-- The method `InstanceAdded`. -/
def InstanceAdded (o : Oracle) (r : DefaultMultiTenantManager) (inst : Instance) :
    DefaultMultiTenantManager :=
  if inst.InUse then
    updateNotifierConfig o
      { r with discoveryConfigs :=
          (r.discoveryConfigs.set (alertManagerHTTPAddress r inst)
            (NewDiscoveryConfig inst.Address)) }
  else r

/-- The method `InstanceRemoved`. -/
def InstanceRemoved (o : Oracle) (r : DefaultMultiTenantManager) (inst : Instance) :
    DefaultMultiTenantManager :=
  updateNotifierConfig o
    { r with discoveryConfigs := r.discoveryConfigs.delete (alertManagerHTTPAddress r inst) }

/-- The method `InstanceChanged`. -/
def InstanceChanged (o : Oracle) (r : DefaultMultiTenantManager) (inst : Instance) :
    DefaultMultiTenantManager :=
  if inst.InUse then InstanceAdded o r inst else InstanceRemoved o r inst

/-! ## Engines and notifiers -/

/-- The method `getOrCreateNotifier`; the returned error is `none` on success.
A notifier whose first `applyConfig` fails is not stored. -/
def getOrCreateNotifier (o : Oracle) (r : DefaultMultiTenantManager) (userID : String) :
    DefaultMultiTenantManager × Option Error :=
  match r.notifiers.get userID with
  | some _ => (r, none)
  | none =>
    if o.applyConfig userID r.notifierCfg then
      ({ r with notifiers := r.notifiers.set userID { applied := [r.notifierCfg] } }, none)
    else (r, some (Error.job "unable to apply notifier config"))

/-- The injected `managerFactory`: a fresh engine bound to the tenant. -/
def managerFactory (userID : String) : RulesManager :=
  { user := userID, runs := 0, updates := [] }

/-- The method `newManager`. -/
def newManager (o : Oracle) (r : DefaultMultiTenantManager) (userID : String) :
    DefaultMultiTenantManager × Except Error RulesManager :=
  match getOrCreateNotifier o r userID with
  | (r1, some err) => (r1, .error err)
  | (r1, none) =>
    ({ r1 with userManagerMetrics := r1.userManagerMetrics.set userID () },
      .ok (managerFactory userID))

/-- The method `getOrCreateManager`; on success the result carries the engine
and the `created` bit. -/
def getOrCreateManager (o : Oracle) (r : DefaultMultiTenantManager) (user : String) :
    DefaultMultiTenantManager × Except Error (RulesManager × Bool) :=
  match r.userManagers.get user with
  | some manager => (r, .ok (manager, false))
  | none =>
    match r.userManagers.get user with
    | some manager => (r, .ok (manager, false))
    | none =>
      match newManager o r user with
      | (r1, .error err) => (r1, .error err)
      | (r1, .ok manager) =>
        let manager1 : RulesManager :=
          if r1.rulerIsRunning then { manager with runs := manager.runs + 1 } else manager
        ({ r1 with userManagers := r1.userManagers.set user manager1 }, .ok (manager1, true))

/-- The method `syncRulesToManager`. -/
def syncRulesToManager (o : Oracle) (r : DefaultMultiTenantManager) (user : String)
    (groups : RuleGroupList) : DefaultMultiTenantManager :=
  let r0 := { r with mapper := MapperCall.MapRules user groups :: r.mapper }
  match o.MapRules user groups with
  | none => { r0 with lastReloadSuccessful := r0.lastReloadSuccessful.set user 0 }
  | some (update, files) =>
    match getOrCreateManager o r0 user with
    | (r1, .error _) => { r1 with lastReloadSuccessful := r1.lastReloadSuccessful.set user 0 }
    | (r1, .ok (manager, created)) =>
      if !(created || update) then r1
      else
        let r2 := { r1 with
          configUpdatesTotal :=
            r1.configUpdatesTotal.set user (((r1.configUpdatesTotal.get user).getD 0) + 1)
          userManagers :=
            r1.userManagers.set user { manager with updates := files :: manager.updates } }
        if !(o.Update user files) then
          { r2 with lastReloadSuccessful := r2.lastReloadSuccessful.set user 0 }
        else
          { r2 with
            lastReloadSuccessful := r2.lastReloadSuccessful.set user 1
            lastReloadSuccessfulTimestamp := r2.lastReloadSuccessfulTimestamp.set user o.now }

/-! ## Fan-out -/

/-- Run the jobs of the given indices in order, stopping at the first job
error. -/
def runJobs {σ : Type} (jobFunc : Nat → σ → σ × Option Error) : List Nat → σ → σ × Option Error
  | [], s => (s, none)
  | idx :: rest, s =>
    match jobFunc idx s with
    | (s1, some err) => (s1, some err)
    | (s1, none) => runJobs jobFunc rest s1

/-- The library call `concurrency.ForEachJob(ctx, jobs, concurrency, jobFunc)`,
sequentially: nothing to do for zero jobs; a single job is run directly,
whatever the context, and its error is the result; otherwise jobs are started
in index order until all are done or the cancellation is observed, and a
canceled context is the returned error. -/
def ForEachJob {σ : Type} (ctx : Context) (jobs : Nat) (_concurrency : Nat)
    (jobFunc : Nat → σ → σ × Option Error) (s : σ) : σ × Option Error :=
  if jobs = 0 then (s, none)
  else if jobs = 1 then jobFunc 0 s
  else
    match ctx.canceledAfter with
    | none => runJobs jobFunc (List.range jobs) s
    | some k =>
      match runJobs jobFunc (List.range (min k jobs)) s with
      | (s1, some err) => (s1, some err)
      | (s1, none) => (s1, some Error.contextCanceled)

/-- The method `syncRulesToManagerConcurrently`. -/
def syncRulesToManagerConcurrently (o : Oracle) (ctx : Context) (r : DefaultMultiTenantManager)
    (ruleGroups : GoMap RuleGroupList) : DefaultMultiTenantManager × Option Error :=
  let users := ruleGroups.keys
  let res := ForEachJob ctx users.length 10
    (fun idx s =>
      let userID := users.getD idx ""
      (syncRulesToManager o s userID ((ruleGroups.get userID).getD []), none)) r
  ({ res.1 with managersTotal := res.1.userManagers.len }, res.2)

/-! ## Removal -/

/-- The body of the loop of `removeUsersIf` for one entry of `userManagers`. -/
def removeUser (shouldRemove : String → Bool) (s : DefaultMultiTenantManager) (userID : String) :
    DefaultMultiTenantManager :=
  match s.userManagers.get userID with
  | none => s
  | some mngr =>
    if !(shouldRemove userID) then s
    else
      { s with
        stopped := mngr :: s.stopped
        userManagers := s.userManagers.delete userID
        mapper := MapperCall.cleanupUser userID :: s.mapper
        lastReloadSuccessful := s.lastReloadSuccessful.delete userID
        lastReloadSuccessfulTimestamp := s.lastReloadSuccessfulTimestamp.delete userID
        configUpdatesTotal := s.configUpdatesTotal.delete userID
        userManagerMetrics := s.userManagerMetrics.delete userID }

/-- The method `removeUsersIf`. -/
def removeUsersIf (r : DefaultMultiTenantManager) (shouldRemove : String → Bool) :
    DefaultMultiTenantManager :=
  let r1 := r.userManagers.keys.foldl (removeUser shouldRemove) r
  { r1 with managersTotal := r1.userManagers.len }

/-! ## Sync entry points -/

/-- Modelled from the spec: `removeFederatedRuleGroups` is called by both sync
entry points but is not defined in `manager.go`.  The spec says: strip rule
groups whose source tenants list is non-empty.  The call site fixes the shape:
the helper receives the caller's map, returns nothing, and the same map is then
synced, so its effect is the new content of that map. -/
def removeFederatedRuleGroups (ruleGroupsByUser : GoMap RuleGroupList) : GoMap RuleGroupList :=
  ruleGroupsByUser.map (fun kv => (kv.1, kv.2.filter (fun g => g.SourceTenants.isEmpty)))

/-- The function `filterRuleGroupsByNotEmptyUsers`; a `nil` map is `none`. -/
def filterRuleGroupsByNotEmptyUsers (configs : GoMap RuleGroupList) :
    GoMap RuleGroupList × Option (GoMap Unit) :=
  let removed : Option (GoMap Unit) :=
    configs.keys.foldl (fun removed userID =>
      if ((configs.get userID).getD []).length > 0 then removed
      else some ((removed.getD []).set userID ())) none
  if (removed.getD []).len = 0 then (configs, removed)
  else
    let filtered : GoMap RuleGroupList :=
      configs.keys.foldl (fun filtered userID =>
        if !((removed.getD []).has userID) then
          filtered.set userID ((configs.get userID).getD [])
        else filtered) []
    (filtered, removed)

/-- The method `SyncFullRuleGroups`, with the federation filter `rm` as a
parameter.  The second component is the content of the caller's map when the
call returns. -/
def SyncFullRuleGroupsWith (rm : GoMap RuleGroupList → GoMap RuleGroupList) (o : Oracle)
    (ctx : Context) (r : DefaultMultiTenantManager) (ruleGroupsByUser : GoMap RuleGroupList) :
    DefaultMultiTenantManager × GoMap RuleGroupList :=
  let ruleGroupsByUser1 := if !r.federationEnabled then rm ruleGroupsByUser else ruleGroupsByUser
  match syncRulesToManagerConcurrently o ctx r ruleGroupsByUser1 with
  | (r1, some _) => (r1, ruleGroupsByUser1)
  | (r1, none) => (removeUsersIf r1 (fun userID => !(ruleGroupsByUser1.has userID)), ruleGroupsByUser1)

/-- The method `SyncPartialRuleGroups`, with the federation filter `rm` as a
parameter.  The second component is the content of the caller's map when the
call returns. -/
def SyncPartialRuleGroupsWith (rm : GoMap RuleGroupList → GoMap RuleGroupList) (o : Oracle)
    (ctx : Context) (r : DefaultMultiTenantManager) (ruleGroupsByUser : GoMap RuleGroupList) :
    DefaultMultiTenantManager × GoMap RuleGroupList :=
  let ruleGroupsByUser1 := if !r.federationEnabled then rm ruleGroupsByUser else ruleGroupsByUser
  let filtered := filterRuleGroupsByNotEmptyUsers ruleGroupsByUser1
  match syncRulesToManagerConcurrently o ctx r filtered.1 with
  | (r1, some _) => (r1, ruleGroupsByUser1)
  | (r1, none) =>
    (removeUsersIf r1 (fun userID => (filtered.2.getD []).has userID), ruleGroupsByUser1)

/-- The method `SyncFullRuleGroups`. -/
def SyncFullRuleGroups (o : Oracle) (ctx : Context) (r : DefaultMultiTenantManager)
    (ruleGroupsByUser : GoMap RuleGroupList) : DefaultMultiTenantManager × GoMap RuleGroupList :=
  SyncFullRuleGroupsWith removeFederatedRuleGroups o ctx r ruleGroupsByUser

/-- The method `SyncPartialRuleGroups`. -/
def SyncPartialRuleGroups (o : Oracle) (ctx : Context) (r : DefaultMultiTenantManager)
    (ruleGroupsByUser : GoMap RuleGroupList) : DefaultMultiTenantManager × GoMap RuleGroupList :=
  SyncPartialRuleGroupsWith removeFederatedRuleGroups o ctx r ruleGroupsByUser

/-- The method `Start`. -/
def Start (r : DefaultMultiTenantManager) : DefaultMultiTenantManager :=
  if r.rulerIsRunning then r
  else
    { r with
      userManagers := r.userManagers.map (fun kv => (kv.1, { kv.2 with runs := kv.2.runs + 1 }))
      rulerIsRunning := true }

/-- The state built by `NewDefaultMultiTenantManager`, discovery entries and
notifier configuration being those computed at construction. -/
def NewDefaultMultiTenantManager (federationEnabled : Bool) (alertmanagerHTTPPrefix : String)
    (discoveryConfigs : GoMap DiscoveryConfig) (notifierCfg : NotifierConfig) :
    DefaultMultiTenantManager :=
  { federationEnabled := federationEnabled
    alertmanagerHTTPPrefix := alertmanagerHTTPPrefix
    discoveryConfigs := discoveryConfigs
    notifierCfg := notifierCfg
    notifiers := []
    mapper := []
    userManagers := []
    userManagerMetrics := []
    managersTotal := 0
    lastReloadSuccessful := []
    lastReloadSuccessfulTimestamp := []
    configUpdatesTotal := []
    rulerIsRunning := false
    stopped := [] }

/-! ## Views used to state the properties -/

/-- The tenant a mapper call is about. -/
def MapperCall.tenant : MapperCall → String
  | .MapRules user _ => user
  | .cleanupUser user => user

/-- The per-tenant part of the manager state. -/
structure TenantView where
  engine : Option RulesManager
  notifier : Option rulerNotifier
  registry : Option Unit
  lastReloadSuccessful : Option Nat
  lastReloadSuccessfulTimestamp : Option Nat
  configUpdatesTotal : Option Nat
  /-- Calls the mapper received for the tenant, most recent first. -/
  mapperCalls : List MapperCall
  deriving DecidableEq, Repr

/-- What the manager holds for tenant `u`. -/
def view (r : DefaultMultiTenantManager) (u : String) : TenantView :=
  { engine := r.userManagers.get u
    notifier := r.notifiers.get u
    registry := r.userManagerMetrics.get u
    lastReloadSuccessful := r.lastReloadSuccessful.get u
    lastReloadSuccessfulTimestamp := r.lastReloadSuccessfulTimestamp.get u
    configUpdatesTotal := r.configUpdatesTotal.get u
    mapperCalls := r.mapper.filter (fun c => decide (c.tenant = u)) }

/-- The view of a tenant whose engine was removed by `removeUsersIf`: only the
notifier survives, and the mapper received one more `cleanupUser`. -/
def TenantView.removed (t : TenantView) (u : String) : TenantView :=
  { engine := none
    notifier := t.notifier
    registry := none
    lastReloadSuccessful := none
    lastReloadSuccessfulTimestamp := none
    configUpdatesTotal := none
    mapperCalls := MapperCall.cleanupUser u :: t.mapperCalls }

/-- The tenants whose job the fan-out starts: all of them when there is at
most one, otherwise those started before the cancellation is observed. -/
def started (ctx : Context) (users : List String) : List String :=
  if users.length ≤ 1 then users
  else
    match ctx.canceledAfter with
    | none => users
    | some k => users.take k

/-- The per-tenant jobs of a fan-out, run in order for the given tenants. -/
def syncAll (o : Oracle) (ruleGroups : GoMap RuleGroupList) (users : List String)
    (r : DefaultMultiTenantManager) : DefaultMultiTenantManager :=
  users.foldl (fun s userID => syncRulesToManager o s userID ((ruleGroups.get userID).getD [])) r

/-- The error returned by the fan-out: none when there is at most one tenant,
otherwise the cancellation of the context, if any. -/
def fanOutError (ctx : Context) (users : List String) : Option Error :=
  if users.length ≤ 1 then none else ctx.canceledAfter.map (fun _ => Error.contextCanceled)

/-- The map a sync works on once the federation filter has been applied. -/
def gated (r : DefaultMultiTenantManager) (ruleGroupsByUser : GoMap RuleGroupList) :
    GoMap RuleGroupList :=
  if !r.federationEnabled then removeFederatedRuleGroups ruleGroupsByUser else ruleGroupsByUser

/-! ## Sequences of calls and sample inputs -/

/-- A sequence of `SyncFullRuleGroups` calls, each with the results its
collaborators return, its context and its map. -/
def SyncFullSeq : List (Oracle × Context × GoMap RuleGroupList) → DefaultMultiTenantManager →
    DefaultMultiTenantManager
  | [], r => r
  | (o, ctx, m) :: rest, r => SyncFullSeq rest (SyncFullRuleGroups o ctx r m).1

/-- Whether a sync can give tenant `u` an engine when it has none: the mapper
succeeds on the tenant's groups and the tenant's notifier exists or is
configured successfully. -/
def canCreate (o : Oracle) (r : DefaultMultiTenantManager) (u : String)
    (groups : RuleGroupList) : Bool :=
  (o.MapRules u groups).isSome && (r.notifiers.has u || o.applyConfig u r.notifierCfg)

/-- Collaborators that all succeed; the mapper reports a change. -/
def okOracle : Oracle :=
  { MapRules := fun u _ => some (true, [u ++ "/rules"])
    applyConfig := fun _ _ => true
    Update := fun _ _ => true
    buildNotifierConfig := fun d => some ⟨d.keys⟩
    now := 1000 }

/-- Collaborators that succeed, with a mapper that finds the files unchanged. -/
def unchangedOracle : Oracle :=
  { okOracle with MapRules := fun u _ => some (false, [u ++ "/rules"]) }

/-- Collaborators that succeed, except for a mapper that fails on every tenant. -/
def mapFailOracle : Oracle := { okOracle with MapRules := fun _ _ => none }

/-- A plain rule group. -/
def plainGroup : RuleGroupDesc := { Name := "g1", Namespace := "ns", SourceTenants := [] }

/-- A federated rule group. -/
def federatedGroup : RuleGroupDesc :=
  { Name := "gfed", Namespace := "ns", SourceTenants := ["T1", "T2"] }

/-- A fresh manager with tenant federation disabled. -/
def freshManager : DefaultMultiTenantManager :=
  NewDefaultMultiTenantManager false "/alertmanager" [] ⟨[]⟩

/-- A context that is never canceled. -/
def background : Context := ⟨none⟩

/-- A context already canceled when the fan-out starts. -/
def canceled : Context := ⟨some 0⟩

/-- A context whose cancellation the fan-out observes after it has started one
job. -/
def canceledAfterOne : Context := ⟨some 1⟩

/-- Two sets of collaborator results agree for tenant `v`: the mapper, the
notifier and the engine of `v` return the same in both, at the same time. -/
def Oracle.agreesFor (o o' : Oracle) (v : String) : Prop :=
  (∀ groups, o.MapRules v groups = o'.MapRules v groups) ∧
  (∀ cfg, o.applyConfig v cfg = o'.applyConfig v cfg) ∧
  (∀ files, o.Update v files = o'.Update v files) ∧
  o.now = o'.now

/-- A map with rules for the two tenants `A` and `C`. -/
def mapAC : GoMap RuleGroupList := [("A", [plainGroup]), ("C", [plainGroup])]

/-- A manager holding an engine for tenant `B` only. -/
def managerWithB : DefaultMultiTenantManager :=
  (SyncFullRuleGroups okOracle background freshManager [("B", [plainGroup])]).1

/-- Collaborators that succeed, except that configuring a new notifier fails. -/
def notifierFailOracle : Oracle := { okOracle with applyConfig := fun _ _ => false }

/-- An alertmanager ring member that is not in use. -/
def idleInstance : Instance := { Address := "10.0.0.2:9094", InUse := false }

/-- An alertmanager ring member in use. -/
def sampleInstance : Instance := { Address := "10.0.0.1:9094", InUse := true }

/-- A mapper call that carries no federated rule group. -/
def MapperCall.federationFree : MapperCall → Bool
  | .MapRules _ groups => groups.all (fun g => g.SourceTenants.isEmpty)
  | .cleanupUser _ => true

/-- The file sets an engine has been handed, none when there is no engine. -/
def updatesOf (e : Option RulesManager) : List (List String) :=
  (e.map (fun x => x.updates)).getD []

/-! ## Rule group validation -/

/-- A rule of a group under validation (`rulefmt.RuleNode`): the values of its
`record` and `alert` names and its expression. -/
structure RuleNode where
  Record : String
  Alert : String
  Expr : String
  deriving DecidableEq, Repr

/-- A rule group under validation (`rulefmt.RuleGroup`). -/
structure RuleGroup where
  Name : String
  Rules : List RuleNode
  SourceTenants : List String
  deriving DecidableEq, Repr

/-- An element of the list returned by `ValidateRuleGroup`: a plain error, or
a `rulefmt.Error` locating a rule error. -/
inductive ValidationError where
  | plain (msg : String)
  | rule (Group : String) (Rule : Nat) (RuleName : String) (Err : String)
  deriving DecidableEq, Repr

/-- The method `ValidateRuleGroup`; `Validate` is the library method
`RuleNode.Validate`, which returns the errors of one rule. -/
def ValidateRuleGroup (Validate : RuleNode → List String) (r : DefaultMultiTenantManager)
    (g : RuleGroup) : List ValidationError :=
  let errs : List ValidationError := []
  if g.Name = "" then
    errs ++ [ValidationError.plain "invalid rules configuration: rule group name must not be empty"]
  else if g.Rules.length = 0 then
    errs ++ [ValidationError.plain
      ("invalid rules configuration: rule group '" ++ g.Name ++ "' has no rules")]
  else
    let errs1 :=
      if !r.federationEnabled && g.SourceTenants.length > 0 then
        errs ++ [ValidationError.plain
          ("invalid rules configuration: rule group '" ++ g.Name ++
            "' is a federated rule group, but rules federation is disabled; " ++
            "please contact your service administrator to have it enabled")]
      else errs
    (g.Rules.enumFrom 0).foldl (fun acc ir =>
      (Validate ir.2).foldl (fun acc1 err =>
        let ruleName := if ir.2.Alert ≠ "" then ir.2.Alert else ir.2.Record
        acc1 ++ [ValidationError.rule g.Name ir.1 ruleName err]) acc) errs1

/-! ## Sequences of sync and start calls -/

/-- A call on the manager: a full sync, a partial sync or `Start`. -/
inductive Op where
  | syncFull (o : Oracle) (ctx : Context) (ruleGroupsByUser : GoMap RuleGroupList)
  | syncPartial (o : Oracle) (ctx : Context) (ruleGroupsByUser : GoMap RuleGroupList)
  | start

/-- The state after one call. -/
def Op.apply : Op → DefaultMultiTenantManager → DefaultMultiTenantManager
  | .syncFull o ctx m, r => (SyncFullRuleGroups o ctx r m).1
  | .syncPartial o ctx m, r => (SyncPartialRuleGroups o ctx r m).1
  | .start, r => Start r

/-- The state after a sequence of calls. -/
def runOps (ops : List Op) (r : DefaultMultiTenantManager) : DefaultMultiTenantManager :=
  ops.foldl (fun s op => op.apply s) r

/-- The number of `Run` calls every engine of the manager must have received:
one if the manager is running, none otherwise. -/
def expectedRuns (r : DefaultMultiTenantManager) : Nat := if r.rulerIsRunning then 1 else 0

/-- A rule validator that rejects rules with an empty expression. -/
def sampleValidate (rule : RuleNode) : List String :=
  if rule.Expr = "" then ["field expr must be set in rule"] else []

/-! ## Samples for the filter of empty tenants -/

/-- A map with an empty tenant `B` between two tenants with rules. -/
def sampleConfigs : GoMap RuleGroupList :=
  [("A", [plainGroup]), ("B", []), ("C", [federatedGroup, plainGroup])]

/-! ## Rules that stay the same -/

/-- The mapper reports `changed = false` for the groups of the tenant. -/
def reportsUnchanged (o : Oracle) (u : String) (groups : RuleGroupList) : Bool :=
  match o.MapRules u groups with
  | some (false, _) => true
  | _ => false

/-- The rules of tenant `T` stay the same through a call made in state `s`:
the call does not drop `T` (a full sync has `T` in its map, a partial sync does
not supply `T` with an empty list) and the mapper reports `changed = false`
for the groups of `T` that the call syncs. -/
def Op.keepsRules (T : String) (s : DefaultMultiTenantManager) : Op → Bool
  | .syncFull o _ m => m.has T && reportsUnchanged o T (((gated s m).get T).getD [])
  | .syncPartial o _ m =>
    match (gated s m).get T with
    | none => true
    | some [] => false
    | some (g :: gs) => reportsUnchanged o T (g :: gs)
  | .start => true

/-- The rules of tenant `T` stay the same through a sequence of calls started
in state `s`. -/
def rulesStayTheSame (T : String) : List Op → DefaultMultiTenantManager → Bool
  | [], _ => true
  | op :: ops, s => op.keepsRules T s && rulesStayTheSame T ops (op.apply s)

/-- Collaborators that succeed, except for engines that reject every update. -/
def updateFailOracle : Oracle := { okOracle with Update := fun _ _ => false }

/-- The manager after a full sync in which the engine of tenant `A` was
created and rejected its first update. -/
def managerAfterFailedUpdate : DefaultMultiTenantManager :=
  (SyncFullRuleGroups updateFailOracle background freshManager [("A", [plainGroup])]).1

/-- Later calls through which the rules of tenant `A` stay the same: a full
sync, `Start`, and a partial sync that also brings tenant `B`, the mapper
finding the files unchanged each time. -/
def laterCalls : List Op :=
  [Op.syncFull unchangedOracle background [("A", [plainGroup])], Op.start,
    Op.syncPartial unchangedOracle background [("B", [plainGroup]), ("A", [plainGroup])]]

/-! # Proofs -/

open GoMap

/-! ## Lemmas on Go maps -/

theorem tenant_MapRules (u : String) (g : RuleGroupList) :
    (MapperCall.MapRules u g).tenant = u := rfl

theorem tenant_cleanupUser (u : String) : (MapperCall.cleanupUser u).tenant = u := rfl

namespace GoMap
variable {V W : Type}

theorem get_delete (m : GoMap V) (k k' : String) :
    get (delete m k) k' = if k = k' then none else get m k' := by
  induction m with
  | nil => simp [delete, get]
  | cons kv m ih =>
    obtain ⟨a, b⟩ := kv
    unfold delete at ih ⊢
    by_cases h : a = k
    · subst h
      by_cases h2 : a = k'
      · simp [List.filter, h2] at ih ⊢; simpa [h2] using ih
      · simp [List.filter, get, h2] at ih ⊢; simpa [h2] using ih
    · by_cases h2 : k = k'
      · subst h2; simp [List.filter, h, get] at ih ⊢; exact ih
      · simp [List.filter, h, get, h2] at ih ⊢; rw [ih]

theorem get_set (m : GoMap V) (k : String) (v : V) (k' : String) :
    get (set m k v) k' = if k = k' then some v else get m k' := by
  unfold set
  by_cases h : k = k'
  · simp [get, h]
  · simp [get, h, get_delete]

theorem get_map (f : String → V → W) (m : GoMap V) (k : String) :
    get (m.map (fun kv => (kv.1, f kv.1 kv.2))) k = (get m k).map (f k) := by
  induction m with
  | nil => simp [get]
  | cons kv m ih =>
    obtain ⟨a, b⟩ := kv
    by_cases h : a = k
    · subst h; simp [get]
    · simp [get, h]; exact ih

theorem mem_keys (m : GoMap V) (k : String) : k ∈ keys m ↔ (get m k).isSome = true := by
  unfold keys
  rw [List.mem_dedup]
  induction m with
  | nil => simp [get]
  | cons kv m ih =>
    obtain ⟨a, b⟩ := kv
    by_cases h : a = k
    · subst h; simp [get]
    · simp [get, h] at ih ⊢
      rw [← ih]
      constructor
      · rintro (h1 | h1)
        · exact absurd h1.symm h
        · exact h1
      · intro h1; exact Or.inr h1

theorem nodup_keys (m : GoMap V) : (keys m).Nodup := List.nodup_dedup _

theorem has_eq (m : GoMap V) (k : String) : has m k = (get m k).isSome := rfl

theorem keys_map (f : String → V → W) (m : GoMap V) :
    keys (m.map (fun kv => (kv.1, f kv.1 kv.2))) = keys m := by
  unfold keys
  congr 1
  simp [List.map_map, Function.comp_def]

end GoMap

theorem syncRulesToManager_frame (o : Oracle) (r : DefaultMultiTenantManager) (v u : String)
    (g : RuleGroupList) (h : v ≠ u) : view (syncRulesToManager o r v g) u = view r u := by
  unfold syncRulesToManager getOrCreateManager newManager getOrCreateNotifier view
  cases o.MapRules v g with
  | none => simp [get_set, h, tenant_MapRules, List.filter_cons]
  | some p =>
    obtain ⟨upd, files⟩ := p
    cases hE : r.userManagers.get v with
    | some e => cases upd <;> cases hU : o.Update v files <;> simp [hU, hE, get_set, h, tenant_MapRules, List.filter_cons]
    | none =>
      cases hN : r.notifiers.get v with
      | some n => cases upd <;> cases hU : o.Update v files <;> simp [hU, hE, hN, get_set, h, tenant_MapRules, List.filter_cons]
      | none =>
        cases hA : o.applyConfig v r.notifierCfg <;> cases upd <;> cases hU : o.Update v files <;>
          simp [hU, hE, hN, hA, get_set, h, tenant_MapRules, List.filter_cons]

theorem syncRulesToManager_mapper (o : Oracle) (r : DefaultMultiTenantManager) (v : String)
    (g : RuleGroupList) :
    (syncRulesToManager o r v g).mapper = MapperCall.MapRules v g :: r.mapper := by
  unfold syncRulesToManager getOrCreateManager newManager getOrCreateNotifier
  cases o.MapRules v g with
  | none => simp
  | some p =>
    obtain ⟨upd, files⟩ := p
    cases hE : r.userManagers.get v with
    | some e => cases upd <;> cases hU : o.Update v files <;> simp [hU, hE, tenant_MapRules, List.filter_cons]
    | none =>
      cases hN : r.notifiers.get v with
      | some n => cases upd <;> cases hU : o.Update v files <;> simp [hU, hE, hN]
      | none =>
        cases hA : o.applyConfig v r.notifierCfg <;> cases upd <;> cases hU : o.Update v files <;>
          simp [hU, hE, hN, hA]

theorem runJobs_total {σ : Type} (f : Nat → σ → σ) (l : List Nat) (s : σ) :
    runJobs (fun idx s => (f idx s, none)) l s = (l.foldl (fun s idx => f idx s) s, none) := by
  induction l generalizing s with
  | nil => rfl
  | cons a l ih => simp [runJobs, ih]

theorem foldl_range_getD {σ : Type} (F : σ → String → σ) (l : List String) (n : Nat)
    (hn : n ≤ l.length) (s : σ) :
    (List.range n).foldl (fun s idx => F s (l.getD idx "")) s = (l.take n).foldl F s := by
  induction n with
  | zero => simp
  | succ n ih =>
    have hlt : n < l.length := hn
    rw [List.range_succ, List.foldl_append, ih (Nat.le_of_lt hlt), List.take_succ,
      List.foldl_append]
    simp [List.getD, List.getElem?_eq_getElem hlt]

theorem syncRulesToManagerConcurrently_eq (o : Oracle) (ctx : Context)
    (r : DefaultMultiTenantManager) (g : GoMap RuleGroupList) :
    syncRulesToManagerConcurrently o ctx r g =
      ({ syncAll o g (started ctx g.keys) r with
          managersTotal := (syncAll o g (started ctx g.keys) r).userManagers.len },
        fanOutError ctx g.keys) := by
  unfold syncRulesToManagerConcurrently ForEachJob started syncAll fanOutError
  by_cases h0 : g.keys = []
  · cases hc : ctx.canceledAfter <;> simp [h0]
  by_cases h1 : g.keys.length = 1
  · obtain ⟨a, ha⟩ := List.length_eq_one.mp h1
    simp [ha]
  · have hlen : ¬ (g.keys.length = 0) := by simpa using h0
    have hle : ¬ (g.keys.length ≤ 1) := by omega
    cases hc : ctx.canceledAfter with
    | none =>
      simp only [hlen, h1, hle, if_false, h0]
      rw [runJobs_total (fun idx s => syncRulesToManager o s (g.keys.getD idx "")
        ((g.get (g.keys.getD idx "")).getD []))]
      rw [foldl_range_getD (fun s userID => syncRulesToManager o s userID ((g.get userID).getD []))
        g.keys g.keys.length (le_refl _)]
      simp
    | some k =>
      simp only [hlen, h1, hle, if_false, h0]
      rw [runJobs_total (fun idx s => syncRulesToManager o s (g.keys.getD idx "")
        ((g.get (g.keys.getD idx "")).getD []))]
      rw [foldl_range_getD (fun s userID => syncRulesToManager o s userID ((g.get userID).getD []))
        g.keys (min k g.keys.length) (Nat.min_le_right _ _)]
      have ht : List.take (min k g.keys.length) g.keys = List.take k g.keys := by
        rcases Nat.le_total k g.keys.length with hk | hk
        · rw [Nat.min_eq_left hk]
        · rw [Nat.min_eq_right hk, List.take_of_length_le hk, List.take_of_length_le (le_refl _)]
      rw [ht]
      simp

theorem syncRulesToManager_globals (o : Oracle) (r : DefaultMultiTenantManager) (v : String)
    (g : RuleGroupList) :
    (syncRulesToManager o r v g).federationEnabled = r.federationEnabled ∧
    (syncRulesToManager o r v g).alertmanagerHTTPPrefix = r.alertmanagerHTTPPrefix ∧
    (syncRulesToManager o r v g).discoveryConfigs = r.discoveryConfigs ∧
    (syncRulesToManager o r v g).notifierCfg = r.notifierCfg ∧
    (syncRulesToManager o r v g).rulerIsRunning = r.rulerIsRunning ∧
    (syncRulesToManager o r v g).stopped = r.stopped ∧
    (syncRulesToManager o r v g).managersTotal = r.managersTotal := by
  unfold syncRulesToManager getOrCreateManager newManager getOrCreateNotifier
  cases o.MapRules v g with
  | none => simp
  | some p =>
    obtain ⟨upd, files⟩ := p
    cases hE : r.userManagers.get v with
    | some e => cases upd <;> cases hU : o.Update v files <;> simp [hU, hE]
    | none =>
      cases hN : r.notifiers.get v with
      | some n => cases upd <;> cases hU : o.Update v files <;> simp [hU, hE, hN]
      | none =>
        cases hA : o.applyConfig v r.notifierCfg <;> cases upd <;> cases hU : o.Update v files <;>
          simp [hU, hE, hN, hA]

/-- What `syncRulesToManager` does to a tenant depends only on that tenant's
own state, the running flag and the notifier configuration. -/
theorem syncRulesToManager_local (o : Oracle) (r r' : DefaultMultiTenantManager) (u : String)
    (g : RuleGroupList) (hv : view r u = view r' u) (hrun : r.rulerIsRunning = r'.rulerIsRunning)
    (hcfg : r.notifierCfg = r'.notifierCfg) :
    view (syncRulesToManager o r u g) u = view (syncRulesToManager o r' u g) u := by
  simp only [view, TenantView.mk.injEq] at hv
  obtain ⟨h1, h2, h3, h4, h5, h6, h7⟩ := hv
  unfold syncRulesToManager getOrCreateManager newManager getOrCreateNotifier view
  cases o.MapRules u g with
  | none => simp [get_set, h1, h2, h3, h4, h5, h6, h7, tenant_MapRules, List.filter_cons]
  | some p =>
    obtain ⟨upd, files⟩ := p
    cases hE : r'.userManagers.get u with
    | some e =>
      cases upd <;> cases hU : o.Update u files <;>
        simp [hU, hE, get_set, h1, h2, h3, h4, h5, h6, h7, tenant_MapRules, List.filter_cons]
    | none =>
      cases hN : r'.notifiers.get u with
      | some n =>
        cases upd <;> cases hU : o.Update u files <;>
          simp [hU, hE, hN, get_set, h1, h2, h3, h4, h5, h6, h7, tenant_MapRules, List.filter_cons, hrun, hcfg]
      | none =>
        cases hA : o.applyConfig u r'.notifierCfg <;> cases upd <;>
          cases hU : o.Update u files <;>
          simp [hU, hE, hN, hA, get_set, h1, h2, h3, h4, h5, h6, h7, tenant_MapRules, List.filter_cons, hrun, hcfg]

theorem syncAll_globals (o : Oracle) (g : GoMap RuleGroupList) (us : List String)
    (r : DefaultMultiTenantManager) :
    (syncAll o g us r).federationEnabled = r.federationEnabled ∧
    (syncAll o g us r).alertmanagerHTTPPrefix = r.alertmanagerHTTPPrefix ∧
    (syncAll o g us r).discoveryConfigs = r.discoveryConfigs ∧
    (syncAll o g us r).notifierCfg = r.notifierCfg ∧
    (syncAll o g us r).rulerIsRunning = r.rulerIsRunning ∧
    (syncAll o g us r).stopped = r.stopped ∧
    (syncAll o g us r).managersTotal = r.managersTotal := by
  induction us generalizing r with
  | nil => simp [syncAll]
  | cons v us ih =>
    have h := syncRulesToManager_globals o r v ((g.get v).getD [])
    have h2 := ih (syncRulesToManager o r v ((g.get v).getD []))
    simp only [syncAll, List.foldl_cons] at h2 ⊢
    obtain ⟨a1, a2, a3, a4, a5, a6, a7⟩ := h
    obtain ⟨b1, b2, b3, b4, b5, b6, b7⟩ := h2
    exact ⟨b1.trans a1, b2.trans a2, b3.trans a3, b4.trans a4, b5.trans a5, b6.trans a6,
      b7.trans a7⟩

/-- Tenants outside the work set are not touched by the fan-out. -/
theorem syncAll_frame (o : Oracle) (g : GoMap RuleGroupList) (us : List String)
    (r : DefaultMultiTenantManager) (u : String) (hu : u ∉ us) :
    view (syncAll o g us r) u = view r u := by
  induction us generalizing r with
  | nil => simp [syncAll]
  | cons v us ih =>
    simp only [List.mem_cons, not_or] at hu
    have h2 := ih (syncRulesToManager o r v ((g.get v).getD [])) hu.2
    simp only [syncAll, List.foldl_cons] at h2 ⊢
    rw [h2]
    exact syncRulesToManager_frame o r v u _ (fun h => hu.1 h.symm)

/-- Within a fan-out, a tenant of the work set ends in the state that
`syncRulesToManager` alone would have produced for it. -/
theorem syncAll_view (o : Oracle) (g : GoMap RuleGroupList) (us : List String)
    (r : DefaultMultiTenantManager) (u : String) (hnd : us.Nodup) (hu : u ∈ us) :
    view (syncAll o g us r) u = view (syncRulesToManager o r u ((g.get u).getD [])) u := by
  induction us generalizing r with
  | nil => simp at hu
  | cons v us ih =>
    rw [List.nodup_cons] at hnd
    by_cases hvu : v = u
    · subst hvu
      have := syncAll_frame o g us (syncRulesToManager o r v ((g.get v).getD [])) v hnd.1
      simpa [syncAll] using this
    · have hmem : u ∈ us := by
        rcases List.mem_cons.mp hu with h | h
        · exact absurd h.symm hvu
        · exact h
      have h2 := ih (syncRulesToManager o r v ((g.get v).getD [])) hnd.2 hmem
      simp only [syncAll, List.foldl_cons] at h2 ⊢
      rw [h2]
      have hg := syncRulesToManager_globals o r v ((g.get v).getD [])
      exact syncRulesToManager_local o _ r u _ (syncRulesToManager_frame o r v u _ hvu)
        hg.2.2.2.2.1 hg.2.2.2.1

theorem removeUser_view (p : String → Bool) (s : DefaultMultiTenantManager) (v u : String) :
    view (removeUser p s v) u =
      if v = u ∧ s.userManagers.has u = true ∧ p u = true then (view s u).removed u
      else view s u := by
  unfold removeUser
  by_cases hvu : v = u
  · subst hvu
    cases hE : s.userManagers.get v with
    | none => simp [has_eq, hE]
    | some e =>
      cases hp : p v
      · simp [has_eq, hE, hp]
      · simp [has_eq, hE, hp, view, TenantView.removed, get_delete, List.filter_cons,
          tenant_cleanupUser]
  · cases hE : s.userManagers.get v with
    | none => simp [hvu]
    | some e =>
      cases hp : p v
      · simp [hvu]
      · simp [hvu, view, get_delete, List.filter_cons, tenant_cleanupUser]

theorem removeUser_globals (p : String → Bool) (s : DefaultMultiTenantManager) (v : String) :
    (removeUser p s v).federationEnabled = s.federationEnabled ∧
    (removeUser p s v).alertmanagerHTTPPrefix = s.alertmanagerHTTPPrefix ∧
    (removeUser p s v).discoveryConfigs = s.discoveryConfigs ∧
    (removeUser p s v).notifierCfg = s.notifierCfg ∧
    (removeUser p s v).rulerIsRunning = s.rulerIsRunning ∧
    (removeUser p s v).notifiers = s.notifiers := by
  unfold removeUser
  cases hE : s.userManagers.get v with
  | none => simp
  | some e => cases hp : p v <;> simp

theorem foldl_removeUser_view (p : String → Bool) (us : List String)
    (s : DefaultMultiTenantManager) (u : String) :
    view (us.foldl (removeUser p) s) u =
      if u ∈ us ∧ s.userManagers.has u = true ∧ p u = true then (view s u).removed u
      else view s u := by
  induction us generalizing s with
  | nil => simp
  | cons v us ih =>
    rw [List.foldl_cons, ih (removeUser p s v)]
    have hv := removeUser_view p s v u
    have hhas : (removeUser p s v).userManagers.has u = (view (removeUser p s v) u).engine.isSome :=
      rfl
    have hhas0 : s.userManagers.has u = (view s u).engine.isSome := rfl
    by_cases hc : v = u ∧ s.userManagers.has u = true ∧ p u = true
    · rw [if_pos hc] at hv
      have h1 : (removeUser p s v).userManagers.has u = false := by
        rw [hhas, hv]; rfl
      rw [h1, hv, if_neg (by simp), if_pos ⟨by simp [hc.1], hc.2⟩]
    · rw [if_neg hc] at hv
      have h1 : (removeUser p s v).userManagers.has u = s.userManagers.has u := by
        rw [hhas, hv, hhas0]
      rw [h1, hv]
      by_cases hm : u ∈ us ∧ s.userManagers.has u = true ∧ p u = true
      · rw [if_pos hm, if_pos ⟨List.mem_cons_of_mem _ hm.1, hm.2⟩]
      · rw [if_neg hm, if_neg]
        rintro ⟨hmem, h2, h3⟩
        rcases List.mem_cons.mp hmem with h | h
        · exact hc ⟨h.symm, h2, h3⟩
        · exact hm ⟨h, h2, h3⟩

/-- The effect of `removeUsersIf` on one tenant. -/
theorem removeUsersIf_view (r : DefaultMultiTenantManager) (p : String → Bool) (u : String) :
    view (removeUsersIf r p) u =
      if r.userManagers.has u = true ∧ p u = true then (view r u).removed u else view r u := by
  have h := foldl_removeUser_view p r.userManagers.keys r u
  have hk : u ∈ r.userManagers.keys ↔ r.userManagers.has u = true := mem_keys _ _
  unfold removeUsersIf
  have hview : ∀ (s : DefaultMultiTenantManager) (n : Nat),
      view { s with managersTotal := n } u = view s u := fun _ _ => rfl
  simp only [hview]
  rw [h]
  by_cases hh : r.userManagers.has u = true
  · simp [hk, hh]
  · simp [hh]

theorem removeUsersIf_managersTotal (r : DefaultMultiTenantManager) (p : String → Bool) :
    (removeUsersIf r p).managersTotal = (removeUsersIf r p).userManagers.len := rfl

theorem removeUsersIf_globals (r : DefaultMultiTenantManager) (p : String → Bool) :
    (removeUsersIf r p).federationEnabled = r.federationEnabled ∧
    (removeUsersIf r p).alertmanagerHTTPPrefix = r.alertmanagerHTTPPrefix ∧
    (removeUsersIf r p).discoveryConfigs = r.discoveryConfigs ∧
    (removeUsersIf r p).notifierCfg = r.notifierCfg ∧
    (removeUsersIf r p).rulerIsRunning = r.rulerIsRunning ∧
    (removeUsersIf r p).notifiers = r.notifiers := by
  unfold removeUsersIf
  generalize r.userManagers.keys = us
  induction us generalizing r with
  | nil => simp
  | cons v us ih =>
    have h1 := removeUser_globals p r v
    have h2 := ih (removeUser p r v)
    simp only [List.foldl_cons] at h2 ⊢
    obtain ⟨a1, a2, a3, a4, a5, a6⟩ := h1
    obtain ⟨b1, b2, b3, b4, b5, b6⟩ := h2
    exact ⟨b1.trans a1, b2.trans a2, b3.trans a3, b4.trans a4, b5.trans a5, b6.trans a6⟩

/-! ## Lemmas on the two filters -/

theorem get_removeFederatedRuleGroups (m : GoMap RuleGroupList) (u : String) :
    (removeFederatedRuleGroups m).get u =
      (m.get u).map (fun gs => gs.filter (fun g => g.SourceTenants.isEmpty)) := by
  unfold removeFederatedRuleGroups
  exact get_map (fun _ gs => gs.filter (fun g => g.SourceTenants.isEmpty)) m u

theorem keys_removeFederatedRuleGroups (m : GoMap RuleGroupList) :
    (removeFederatedRuleGroups m).keys = m.keys := by
  unfold removeFederatedRuleGroups
  exact keys_map (fun _ gs => gs.filter (fun g => g.SourceTenants.isEmpty)) m

theorem GoMap.has_of_len_zero {V : Type} (m : GoMap V) (h : m.len = 0) (u : String) :
    m.has u = false := by
  have hk : m.keys = [] := List.length_eq_zero.mp h
  have := mem_keys m u
  rw [hk] at this
  simpa [has_eq] using this

theorem foldl_removed_has (m : GoMap RuleGroupList) (us : List String) (acc : Option (GoMap Unit))
    (u : String) :
    ((us.foldl (fun (removed : Option (GoMap Unit)) (userID : String) =>
        if ((m.get userID).getD []).length > 0 then removed
        else some ((removed.getD []).set userID ())) acc).getD []).has u = true ↔
      ((acc.getD []).has u = true ∨ (u ∈ us ∧ (m.get u).getD [] = [])) := by
  induction us generalizing acc with
  | nil => simp
  | cons v us ih =>
    rw [List.foldl_cons, ih]
    by_cases hl : ((m.get v).getD []).length > 0
    · have hne : (m.get v).getD [] ≠ [] := fun h => by simp [h] at hl
      simp only [hl, if_true, List.mem_cons]
      constructor
      · rintro (h | ⟨h1, h2⟩)
        · exact Or.inl h
        · exact Or.inr ⟨Or.inr h1, h2⟩
      · rintro (h | ⟨h1 | h1, h2⟩)
        · exact Or.inl h
        · subst h1; exact absurd h2 hne
        · exact Or.inr ⟨h1, h2⟩
    · have he : (m.get v).getD [] = [] := by
        have : ((m.get v).getD []).length = 0 := by omega
        exact List.length_eq_zero.mp this
      simp only [hl, if_false, List.mem_cons, Option.getD_some, has_eq, get_set]
      by_cases hvu : v = u
      · subst hvu; simp [he]
      · simp only [hvu, if_false]
        constructor
        · rintro (h | ⟨h1, h2⟩)
          · exact Or.inl h
          · exact Or.inr ⟨Or.inr h1, h2⟩
        · rintro (h | ⟨h1 | h1, h2⟩)
          · exact Or.inl h
          · exact absurd h1.symm hvu
          · exact Or.inr ⟨h1, h2⟩

theorem foldl_filtered_get (m : GoMap RuleGroupList) (rem : GoMap Unit) (us : List String)
    (acc : GoMap RuleGroupList) (u : String) :
    (us.foldl (fun (filtered : GoMap RuleGroupList) (userID : String) =>
        if !(rem.has userID) then filtered.set userID ((m.get userID).getD [])
        else filtered) acc).get u =
      if u ∈ us ∧ rem.has u = false then some ((m.get u).getD []) else acc.get u := by
  induction us generalizing acc with
  | nil => simp
  | cons v us ih =>
    rw [List.foldl_cons, ih]
    by_cases hm : u ∈ us ∧ rem.has u = false
    · rw [if_pos hm, if_pos ⟨List.mem_cons_of_mem _ hm.1, hm.2⟩]
    · rw [if_neg hm]
      by_cases hvu : v = u
      · subst hvu
        cases hr : rem.has v
        · simp [get_set]
        · simp [hr]
      · have : ¬ (u ∈ v :: us ∧ rem.has u = false) := by
          rintro ⟨h1, h2⟩
          rcases List.mem_cons.mp h1 with h | h
          · exact hvu h.symm
          · exact hm ⟨h, h2⟩
        rw [if_neg this]
        cases hr : rem.has v <;> simp [get_set, hvu]

/-- The removed set of `filterRuleGroupsByNotEmptyUsers` holds the keys with an
empty group list. -/
theorem filter_removed_has (m : GoMap RuleGroupList) (u : String) :
    ((filterRuleGroupsByNotEmptyUsers m).2.getD []).has u = true ↔ m.get u = some [] := by
  have h := foldl_removed_has m m.keys none u
  have hk := mem_keys m u
  have h2 : ((filterRuleGroupsByNotEmptyUsers m).2.getD []).has u =
      ((m.keys.foldl (fun (removed : Option (GoMap Unit)) (userID : String) =>
        if ((m.get userID).getD []).length > 0 then removed
        else some ((removed.getD []).set userID ())) none).getD []).has u := by
    unfold filterRuleGroupsByNotEmptyUsers
    simp only []
    split <;> rfl
  rw [h2, h, hk]
  cases hg : m.get u with
  | none => simp [has_eq, GoMap.get]
  | some gs => simp [has_eq, GoMap.get]

/-- The filtered map of `filterRuleGroupsByNotEmptyUsers` holds the keys with a
non-empty group list, each with its list. -/
theorem filter_filtered_get (m : GoMap RuleGroupList) (u : String) :
    (filterRuleGroupsByNotEmptyUsers m).1.get u =
      if (m.get u).getD [] = [] then none else m.get u := by
  have hrem := filter_removed_has m u
  have hk := mem_keys m u
  unfold filterRuleGroupsByNotEmptyUsers at hrem ⊢
  simp only [] at hrem ⊢
  split
  · rename_i hlen
    rw [if_pos hlen] at hrem
    have hno := GoMap.has_of_len_zero _ hlen u
    simp only [] at hrem
    rw [hno] at hrem
    cases hg : m.get u with
    | none => simp
    | some gs =>
      have : gs ≠ [] := fun h => by simp [hg, h] at hrem
      simp [this]
  · rename_i hlen
    rw [if_neg hlen] at hrem
    simp only [] at hrem
    rw [foldl_filtered_get]
    cases hg : m.get u with
    | none =>
      have hmem : u ∉ m.keys := by rw [hk, hg]; simp
      simp [hmem, GoMap.get]
    | some gs =>
      have hmem : u ∈ m.keys := by rw [hk, hg]; rfl
      by_cases hgs : gs = []
      · have hr := hrem.mpr (by rw [hg, hgs])
        simp [hgs, hr, GoMap.get]
      · have hr : ¬ _ := fun h => hgs (by have := hrem.mp h; rw [hg] at this; simpa using this)
        simp only [Bool.not_eq_true] at hr
        simp [hgs, hr, hmem]

theorem started_nodup (ctx : Context) (us : List String) (h : us.Nodup) :
    (started ctx us).Nodup := by
  unfold started
  split
  · exact h
  · cases ctx.canceledAfter with
    | none => exact h
    | some k => exact h.sublist (List.take_sublist k us)

theorem started_of_fanOutError_none (ctx : Context) (us : List String)
    (h : fanOutError ctx us = none) : started ctx us = us := by
  unfold fanOutError at h
  unfold started
  by_cases h0 : us.length ≤ 1
  · rw [if_pos h0]
  · rw [if_neg h0] at h
    rw [if_neg h0]
    cases hc : ctx.canceledAfter with
    | none => rfl
    | some k => simp [hc] at h

/-- The effect of the fan-out on one tenant. -/
theorem syncRulesToManagerConcurrently_view (o : Oracle) (ctx : Context)
    (r : DefaultMultiTenantManager) (g : GoMap RuleGroupList) (u : String) :
    view (syncRulesToManagerConcurrently o ctx r g).1 u =
      if u ∈ started ctx g.keys then view (syncRulesToManager o r u ((g.get u).getD [])) u
      else view r u := by
  rw [syncRulesToManagerConcurrently_eq]
  have hview : ∀ (s : DefaultMultiTenantManager) (n : Nat),
      view { s with managersTotal := n } u = view s u := fun _ _ => rfl
  simp only [hview]
  by_cases hu : u ∈ started ctx g.keys
  · rw [if_pos hu]
    exact syncAll_view o g _ r u (started_nodup ctx _ (nodup_keys g)) hu
  · rw [if_neg hu]
    exact syncAll_frame o g _ r u hu

theorem syncRulesToManagerConcurrently_err (o : Oracle) (ctx : Context)
    (r : DefaultMultiTenantManager) (g : GoMap RuleGroupList) :
    (syncRulesToManagerConcurrently o ctx r g).2 = fanOutError ctx g.keys := by
  rw [syncRulesToManagerConcurrently_eq]

theorem syncRulesToManagerConcurrently_managersTotal (o : Oracle) (ctx : Context)
    (r : DefaultMultiTenantManager) (g : GoMap RuleGroupList) :
    (syncRulesToManagerConcurrently o ctx r g).1.managersTotal =
      (syncRulesToManagerConcurrently o ctx r g).1.userManagers.len := by
  rw [syncRulesToManagerConcurrently_eq]

theorem SyncFullRuleGroups_eq (o : Oracle) (ctx : Context) (r : DefaultMultiTenantManager)
    (m : GoMap RuleGroupList) :
    SyncFullRuleGroups o ctx r m =
      (if fanOutError ctx (gated r m).keys = none then
          removeUsersIf (syncRulesToManagerConcurrently o ctx r (gated r m)).1
            (fun userID => !((gated r m).has userID))
        else (syncRulesToManagerConcurrently o ctx r (gated r m)).1, gated r m) := by
  have he := syncRulesToManagerConcurrently_err o ctx r (gated r m)
  unfold SyncFullRuleGroups SyncFullRuleGroupsWith
  show (match syncRulesToManagerConcurrently o ctx r (gated r m) with
    | (r1, some _) => (r1, gated r m)
    | (r1, none) => (removeUsersIf r1 (fun userID => !((gated r m).has userID)), gated r m)) = _
  rcases hs : syncRulesToManagerConcurrently o ctx r (gated r m) with ⟨r1, e⟩
  rw [hs] at he
  simp only [] at he
  rw [← he]
  cases e <;> simp

theorem SyncPartialRuleGroups_eq (o : Oracle) (ctx : Context) (r : DefaultMultiTenantManager)
    (m : GoMap RuleGroupList) :
    SyncPartialRuleGroups o ctx r m =
      (if fanOutError ctx (filterRuleGroupsByNotEmptyUsers (gated r m)).1.keys = none then
          removeUsersIf
            (syncRulesToManagerConcurrently o ctx r (filterRuleGroupsByNotEmptyUsers (gated r m)).1).1
            (fun userID => ((filterRuleGroupsByNotEmptyUsers (gated r m)).2.getD []).has userID)
        else
          (syncRulesToManagerConcurrently o ctx r (filterRuleGroupsByNotEmptyUsers (gated r m)).1).1,
        gated r m) := by
  have he := syncRulesToManagerConcurrently_err o ctx r
    (filterRuleGroupsByNotEmptyUsers (gated r m)).1
  unfold SyncPartialRuleGroups SyncPartialRuleGroupsWith
  show (match syncRulesToManagerConcurrently o ctx r
      (filterRuleGroupsByNotEmptyUsers (gated r m)).1 with
    | (r1, some _) => (r1, gated r m)
    | (r1, none) =>
      (removeUsersIf r1
        (fun userID => ((filterRuleGroupsByNotEmptyUsers (gated r m)).2.getD []).has userID),
        gated r m)) = _
  rcases hs : syncRulesToManagerConcurrently o ctx r
    (filterRuleGroupsByNotEmptyUsers (gated r m)).1 with ⟨r1, e⟩
  rw [hs] at he
  simp only [] at he
  rw [← he]
  cases e <;> simp

/-- A full sync whose fan-out returns no error: tenants of the map are synced,
the others lose their engine. -/
theorem SyncFullRuleGroups_view (o : Oracle) (ctx : Context) (r : DefaultMultiTenantManager)
    (m : GoMap RuleGroupList) (u : String) (h : fanOutError ctx (gated r m).keys = none) :
    view (SyncFullRuleGroups o ctx r m).1 u =
      if (gated r m).has u = true then
        view (syncRulesToManager o r u (((gated r m).get u).getD [])) u
      else if r.userManagers.has u = true then (view r u).removed u
      else view r u := by
  rw [SyncFullRuleGroups_eq, if_pos h]
  simp only []
  rw [removeUsersIf_view]
  have hv := syncRulesToManagerConcurrently_view o ctx r (gated r m) u
  rw [started_of_fanOutError_none ctx _ h] at hv
  have hk := mem_keys (gated r m) u
  have hhas : ∀ s : DefaultMultiTenantManager, s.userManagers.has u = (view s u).engine.isSome :=
    fun _ => rfl
  by_cases hu : (gated r m).has u = true
  · rw [if_neg (by simp [hu]), if_pos hu, hv, if_pos (hk.mpr hu)]
  · have hnk : u ∉ (gated r m).keys := fun hc => hu (hk.mp hc)
    rw [if_neg hnk] at hv
    rw [if_neg hu, hhas, hv, ← hhas]
    simp only [Bool.not_eq_true] at hu
    by_cases hr : r.userManagers.has u = true
    · rw [if_pos ⟨hr, by simp [hu]⟩, if_pos hr]
    · rw [if_neg (fun hc => hr hc.1), if_neg hr]

/-- A full sync whose fan-out is canceled: the tenants whose job was started
are synced, nothing is removed. -/
theorem SyncFullRuleGroups_view_canceled (o : Oracle) (ctx : Context)
    (r : DefaultMultiTenantManager) (m : GoMap RuleGroupList) (u : String)
    (h : fanOutError ctx (gated r m).keys ≠ none) :
    view (SyncFullRuleGroups o ctx r m).1 u =
      if u ∈ started ctx (gated r m).keys then
        view (syncRulesToManager o r u (((gated r m).get u).getD [])) u
      else view r u := by
  rw [SyncFullRuleGroups_eq, if_neg h]
  exact syncRulesToManagerConcurrently_view o ctx r (gated r m) u

theorem filter_filtered_mem_keys (m : GoMap RuleGroupList) (u : String) :
    u ∈ (filterRuleGroupsByNotEmptyUsers m).1.keys ↔ (m.get u).getD [] ≠ [] := by
  rw [mem_keys, filter_filtered_get]
  by_cases h : (m.get u).getD [] = []
  · simp [h]
  · simp only [h, if_false]
    cases hg : m.get u with
    | none => simp [hg] at h
    | some gs => rw [hg] at h; simpa using h

theorem filter_filtered_getD (m : GoMap RuleGroupList) (u : String) :
    ((filterRuleGroupsByNotEmptyUsers m).1.get u).getD [] = (m.get u).getD [] := by
  rw [filter_filtered_get]
  by_cases h : (m.get u).getD [] = []
  · simp [h]
  · simp [h]

/-- A partial sync whose fan-out returns no error: tenants with a non-empty
list are synced, tenants with an empty list lose their engine, the others are
left alone. -/
theorem SyncPartialRuleGroups_view (o : Oracle) (ctx : Context) (r : DefaultMultiTenantManager)
    (m : GoMap RuleGroupList) (u : String)
    (h : fanOutError ctx (filterRuleGroupsByNotEmptyUsers (gated r m)).1.keys = none) :
    view (SyncPartialRuleGroups o ctx r m).1 u =
      if ((gated r m).get u).getD [] ≠ [] then
        view (syncRulesToManager o r u (((gated r m).get u).getD [])) u
      else if (gated r m).get u = some [] ∧ r.userManagers.has u = true then
        (view r u).removed u
      else view r u := by
  rw [SyncPartialRuleGroups_eq, if_pos h]
  simp only []
  rw [removeUsersIf_view]
  have hv := syncRulesToManagerConcurrently_view o ctx r
    (filterRuleGroupsByNotEmptyUsers (gated r m)).1 u
  rw [started_of_fanOutError_none ctx _ h, filter_filtered_getD] at hv
  have hk := filter_filtered_mem_keys (gated r m) u
  have hrem := filter_removed_has (gated r m) u
  have hhas : ∀ s : DefaultMultiTenantManager, s.userManagers.has u = (view s u).engine.isSome :=
    fun _ => rfl
  by_cases hu : ((gated r m).get u).getD [] ≠ []
  · rw [if_pos (hk.mpr hu)] at hv
    have hnr : ¬ (((filterRuleGroupsByNotEmptyUsers (gated r m)).2.getD []).has u = true) := by
      rw [hrem]; intro hc; rw [hc] at hu; exact hu rfl
    rw [if_neg (fun hc => hnr hc.2), if_pos hu, hv]
  · rw [if_neg (fun hc => hu (hk.mp hc))] at hv
    rw [if_neg hu, hhas, hv, ← hhas]
    by_cases hc : (gated r m).get u = some [] ∧ r.userManagers.has u = true
    · rw [if_pos ⟨hc.2, hrem.mpr hc.1⟩, if_pos hc]
    · rw [if_neg (fun h2 => hc ⟨hrem.mp h2.2, h2.1⟩), if_neg hc]

/-- A partial sync whose fan-out is canceled: the tenants whose job was
started are synced, nothing is removed. -/
theorem SyncPartialRuleGroups_view_canceled (o : Oracle) (ctx : Context)
    (r : DefaultMultiTenantManager) (m : GoMap RuleGroupList) (u : String)
    (h : fanOutError ctx (filterRuleGroupsByNotEmptyUsers (gated r m)).1.keys ≠ none) :
    view (SyncPartialRuleGroups o ctx r m).1 u =
      if u ∈ started ctx (filterRuleGroupsByNotEmptyUsers (gated r m)).1.keys then
        view (syncRulesToManager o r u (((gated r m).get u).getD [])) u
      else view r u := by
  rw [SyncPartialRuleGroups_eq, if_neg h]
  have hv := syncRulesToManagerConcurrently_view o ctx r
    (filterRuleGroupsByNotEmptyUsers (gated r m)).1 u
  rw [filter_filtered_getD] at hv
  exact hv

theorem started_subset (ctx : Context) (us : List String) (u : String)
    (h : u ∈ started ctx us) : u ∈ us := by
  unfold started at h
  by_cases h0 : us.length ≤ 1
  · rw [if_pos h0] at h
    exact h
  · rw [if_neg h0] at h
    cases hc : ctx.canceledAfter with
    | none => simpa [hc] using h
    | some k =>
      rw [hc] at h
      exact List.mem_of_mem_take h

theorem gated_keys (r : DefaultMultiTenantManager) (m : GoMap RuleGroupList) :
    (gated r m).keys = m.keys := by
  unfold gated
  cases r.federationEnabled
  · simpa using keys_removeFederatedRuleGroups m
  · simp

theorem gated_has (r : DefaultMultiTenantManager) (m : GoMap RuleGroupList) (u : String) :
    (gated r m).has u = m.has u := by
  have h1 := mem_keys (gated r m) u
  have h2 := mem_keys m u
  rw [gated_keys] at h1
  rw [has_eq, has_eq]
  cases ha : ((gated r m).get u).isSome <;> cases hb : (m.get u).isSome <;> simp_all

theorem gated_get (r : DefaultMultiTenantManager) (m : GoMap RuleGroupList) (u : String) :
    (gated r m).get u =
      if r.federationEnabled = true then m.get u
      else (m.get u).map (fun gs => gs.filter (fun g => g.SourceTenants.isEmpty)) := by
  unfold gated
  cases r.federationEnabled
  · simpa using get_removeFederatedRuleGroups m u
  · simp

/-- A mapper error: only `last_reload_successful` and the mapper log change. -/
theorem syncRulesToManager_mapError (o : Oracle) (r : DefaultMultiTenantManager) (u : String)
    (g : RuleGroupList) (h : o.MapRules u g = none) :
    view (syncRulesToManager o r u g) u =
      { view r u with
        lastReloadSuccessful := some 0
        mapperCalls := MapperCall.MapRules u g :: (view r u).mapperCalls } := by
  unfold syncRulesToManager view
  simp [h, get_set, List.filter_cons, tenant_MapRules]

/-- An existing engine and unchanged rules: only the mapper log changes. -/
theorem syncRulesToManager_unchanged (o : Oracle) (r : DefaultMultiTenantManager) (u : String)
    (g : RuleGroupList) (e : RulesManager) (files : List String)
    (hE : r.userManagers.get u = some e) (h : o.MapRules u g = some (false, files)) :
    view (syncRulesToManager o r u g) u =
      { view r u with mapperCalls := MapperCall.MapRules u g :: (view r u).mapperCalls } := by
  unfold syncRulesToManager getOrCreateManager view
  simp [h, hE, List.filter_cons, tenant_MapRules]

/-- After `syncRulesToManager` a tenant has an engine exactly if it had one, or
the mapper succeeded and its notifier exists or is configured successfully. -/
theorem syncRulesToManager_engine_isSome (o : Oracle) (r : DefaultMultiTenantManager)
    (u : String) (g : RuleGroupList) :
    (view (syncRulesToManager o r u g) u).engine.isSome =
      (r.userManagers.has u ||
        ((o.MapRules u g).isSome && (r.notifiers.has u || o.applyConfig u r.notifierCfg))) := by
  unfold syncRulesToManager getOrCreateManager newManager getOrCreateNotifier view
  cases hM : o.MapRules u g with
  | none => simp [has_eq]
  | some p =>
    obtain ⟨upd, files⟩ := p
    cases hE : r.userManagers.get u with
    | some e => cases upd <;> cases hU : o.Update u files <;> simp [hU, hE, get_set, has_eq]
    | none =>
      cases hN : r.notifiers.get u with
      | some n => cases upd <;> cases hU : o.Update u files <;> simp [hU, hE, hN, get_set, has_eq]
      | none =>
        cases hA : o.applyConfig u r.notifierCfg <;> cases upd <;> cases hU : o.Update u files <;>
          simp [hU, hE, hN, hA, get_set, has_eq]

/-- The engine a tenant has after `syncRulesToManager` has as many scheduled
runs as before if it existed, and one run exactly when the ruler is running if
it was created. -/
theorem syncRulesToManager_runs (o : Oracle) (r : DefaultMultiTenantManager) (u : String)
    (g : RuleGroupList) (e' : RulesManager)
    (h : (view (syncRulesToManager o r u g) u).engine = some e') :
    (∃ e, r.userManagers.get u = some e ∧ e'.runs = e.runs) ∨
      (r.userManagers.get u = none ∧ e'.runs = if r.rulerIsRunning = true then 1 else 0) := by
  unfold syncRulesToManager getOrCreateManager newManager getOrCreateNotifier view at h
  revert h
  cases hM : o.MapRules u g with
  | none =>
    cases hE : r.userManagers.get u with
    | none => simp [hE]
    | some e => simp [hE]; intro h; simp [← h]
  | some p =>
    obtain ⟨upd, files⟩ := p
    cases hE : r.userManagers.get u with
    | some e =>
      cases upd <;> cases hU : o.Update u files <;> simp [hU, hE, get_set] <;>
        intro h <;> simp [← h]
    | none =>
      cases hN : r.notifiers.get u with
      | some n =>
        cases upd <;> cases hU : o.Update u files <;> cases hR : r.rulerIsRunning <;>
          simp [hU, hE, hN, get_set, managerFactory] <;> intro h <;> simp [← h]
      | none =>
        cases hA : o.applyConfig u r.notifierCfg <;> cases upd <;> cases hU : o.Update u files <;>
          cases hR : r.rulerIsRunning <;>
          simp [hU, hE, hN, hA, get_set, managerFactory] <;> intro h <;> simp [← h]

theorem syncRulesToManager_mapperCalls (o : Oracle) (r : DefaultMultiTenantManager) (u : String)
    (g : RuleGroupList) :
    (view (syncRulesToManager o r u g) u).mapperCalls =
      MapperCall.MapRules u g :: (view r u).mapperCalls := by
  show List.filter _ (syncRulesToManager o r u g).mapper = _
  rw [syncRulesToManager_mapper]
  simp [view, List.filter_cons, tenant_MapRules]

theorem mem_mapper_iff (r : DefaultMultiTenantManager) (c : MapperCall) :
    c ∈ r.mapper ↔ c ∈ (view r c.tenant).mapperCalls := by
  simp [view, List.mem_filter]

/-- The engine a tenant has after `syncRulesToManager` was handed, on top of
what it had been handed before, at most the files the mapper returned. -/
theorem syncRulesToManager_updates (o : Oracle) (r : DefaultMultiTenantManager) (u : String)
    (g : RuleGroupList) :
    updatesOf (view (syncRulesToManager o r u g) u).engine = updatesOf (view r u).engine ∨
      ∃ upd files, o.MapRules u g = some (upd, files) ∧
        updatesOf (view (syncRulesToManager o r u g) u).engine =
          files :: updatesOf (view r u).engine := by
  unfold syncRulesToManager getOrCreateManager newManager getOrCreateNotifier view updatesOf
  cases hM : o.MapRules u g with
  | none => simp
  | some p =>
    obtain ⟨upd, files⟩ := p
    cases hE : r.userManagers.get u with
    | some e => cases upd <;> cases hU : o.Update u files <;> simp [hU, hE, get_set]
    | none =>
      cases hN : r.notifiers.get u with
      | some n =>
        cases upd <;> cases hU : o.Update u files <;> cases hR : r.rulerIsRunning <;>
          simp [hU, hE, hN, get_set, managerFactory]
      | none =>
        cases hA : o.applyConfig u r.notifierCfg <;> cases upd <;> cases hU : o.Update u files <;>
          cases hR : r.rulerIsRunning <;>
          simp [hU, hE, hN, hA, get_set, managerFactory]

/-- Every tenant ends a full sync in one of three states: synced, removed or
untouched. -/
theorem SyncFullRuleGroups_view_cases (o : Oracle) (ctx : Context)
    (r : DefaultMultiTenantManager) (m : GoMap RuleGroupList) (u : String) :
    view (SyncFullRuleGroups o ctx r m).1 u =
        view (syncRulesToManager o r u (((gated r m).get u).getD [])) u ∨
      view (SyncFullRuleGroups o ctx r m).1 u = (view r u).removed u ∨
      view (SyncFullRuleGroups o ctx r m).1 u = view r u := by
  by_cases h : fanOutError ctx (gated r m).keys = none
  · rw [SyncFullRuleGroups_view o ctx r m u h]
    split
    · exact Or.inl rfl
    · split
      · exact Or.inr (Or.inl rfl)
      · exact Or.inr (Or.inr rfl)
  · rw [SyncFullRuleGroups_view_canceled o ctx r m u h]
    split
    · exact Or.inl rfl
    · exact Or.inr (Or.inr rfl)

/-- Every tenant ends a partial sync in one of three states: synced, removed
or untouched. -/
theorem SyncPartialRuleGroups_view_cases (o : Oracle) (ctx : Context)
    (r : DefaultMultiTenantManager) (m : GoMap RuleGroupList) (u : String) :
    view (SyncPartialRuleGroups o ctx r m).1 u =
        view (syncRulesToManager o r u (((gated r m).get u).getD [])) u ∨
      view (SyncPartialRuleGroups o ctx r m).1 u = (view r u).removed u ∨
      view (SyncPartialRuleGroups o ctx r m).1 u = view r u := by
  by_cases h : fanOutError ctx (filterRuleGroupsByNotEmptyUsers (gated r m)).1.keys = none
  · rw [SyncPartialRuleGroups_view o ctx r m u h]
    split
    · exact Or.inl rfl
    · split
      · exact Or.inr (Or.inl rfl)
      · exact Or.inr (Or.inr rfl)
  · rw [SyncPartialRuleGroups_view_canceled o ctx r m u h]
    split
    · exact Or.inl rfl
    · exact Or.inr (Or.inr rfl)

theorem mapper_of_view_cases (o : Oracle) (r s : DefaultMultiTenantManager)
    (gs : String → RuleGroupList)
    (h : ∀ u, view s u = view (syncRulesToManager o r u (gs u)) u ∨
      view s u = (view r u).removed u ∨ view s u = view r u)
    (c : MapperCall) (hc : c ∈ s.mapper) :
    c ∈ r.mapper ∨ c = MapperCall.cleanupUser c.tenant ∨
      c = MapperCall.MapRules c.tenant (gs c.tenant) := by
  rw [mem_mapper_iff] at hc
  rw [mem_mapper_iff r c]
  rcases h c.tenant with h1 | h1 | h1
  · rw [h1, syncRulesToManager_mapperCalls] at hc
    rcases List.mem_cons.mp hc with h2 | h2
    · exact Or.inr (Or.inr h2)
    · exact Or.inl h2
  · rw [h1] at hc
    rcases List.mem_cons.mp hc with h2 | h2
    · exact Or.inr (Or.inl h2)
    · exact Or.inl h2
  · rw [h1] at hc
    exact Or.inl hc

theorem updates_of_view_cases (o : Oracle) (r s : DefaultMultiTenantManager)
    (g : RuleGroupList) (u : String)
    (h : view s u = view (syncRulesToManager o r u g) u ∨
      view s u = (view r u).removed u ∨ view s u = view r u) :
    updatesOf (s.userManagers.get u) = updatesOf (r.userManagers.get u) ∨
      updatesOf (s.userManagers.get u) = [] ∨
      ∃ upd files, o.MapRules u g = some (upd, files) ∧
        updatesOf (s.userManagers.get u) = files :: updatesOf (r.userManagers.get u) := by
  have hs : s.userManagers.get u = (view s u).engine := rfl
  have hr : r.userManagers.get u = (view r u).engine := rfl
  rw [hs, hr]
  rcases h with h1 | h1 | h1
  · rw [h1]
    rcases syncRulesToManager_updates o r u g with h2 | h2
    · exact Or.inl h2
    · exact Or.inr (Or.inr h2)
  · rw [h1]; exact Or.inr (Or.inl rfl)
  · rw [h1]; exact Or.inl rfl

theorem gated_federationFree (r : DefaultMultiTenantManager) (m : GoMap RuleGroupList)
    (u : String) (h : r.federationEnabled = false) :
    (MapperCall.MapRules u (((gated r m).get u).getD [])).federationFree = true := by
  rw [gated_get, h]
  cases m.get u with
  | none => simp [MapperCall.federationFree]
  | some gs => simp [MapperCall.federationFree, List.all_eq_true, List.mem_filter]

/-! ## C1, C2: full sync -/

/-- C1, as stated, fails: after a full sync whose mapper fails for tenant `A`
no engine exists although `A` is a key of the map, and after a full sync of
the tenants `A` and `C` whose context is canceled tenant `B` keeps its engine
and neither `A` nor `C` has one. -/
theorem C1_counterexample :
    ((SyncFullSeq [(mapFailOracle, background, [("A", [plainGroup])])]
        freshManager).userManagers.keys = [] ∧
      GoMap.keys ([("A", [plainGroup])] : GoMap RuleGroupList) = ["A"]) ∧
    ((SyncFullSeq [(okOracle, background, [("B", [plainGroup])]),
        (okOracle, canceled, mapAC)] freshManager).userManagers.keys = ["B"] ∧
      GoMap.keys mapAC = ["A", "C"]) := by
  decide

theorem SyncFullSeq_append (calls : List (Oracle × Context × GoMap RuleGroupList))
    (o : Oracle) (ctx : Context) (m : GoMap RuleGroupList) (r0 : DefaultMultiTenantManager) :
    SyncFullSeq (calls ++ [(o, ctx, m)]) r0 =
      (SyncFullRuleGroups o ctx (SyncFullSeq calls r0) m).1 := by
  induction calls generalizing r0 with
  | nil => rfl
  | cons c calls ih =>
    obtain ⟨o1, ctx1, m1⟩ := c
    simp only [List.cons_append, SyncFullSeq]
    exact ih _

theorem SyncFullRuleGroups_has (o : Oracle) (ctx : Context) (r : DefaultMultiTenantManager)
    (m : GoMap RuleGroupList) (u : String) (h : fanOutError ctx m.keys = none) :
    (SyncFullRuleGroups o ctx r m).1.userManagers.has u =
      (m.has u && (r.userManagers.has u || canCreate o r u (((gated r m).get u).getD []))) := by
  have hv := SyncFullRuleGroups_view o ctx r m u (by rw [gated_keys]; exact h)
  have hhas : ∀ s : DefaultMultiTenantManager, s.userManagers.has u = (view s u).engine.isSome :=
    fun _ => rfl
  rw [hhas, hv, gated_has]
  by_cases hu : m.has u = true
  · rw [if_pos hu, syncRulesToManager_engine_isSome]
    simp [hu, canCreate]
  · rw [if_neg hu]
    simp only [Bool.not_eq_true] at hu
    by_cases hr : r.userManagers.has u = true
    · rw [if_pos hr]; simp [hu, TenantView.removed]
    · rw [if_neg hr, ← hhas]
      simp only [Bool.not_eq_true] at hr
      simp [hu, hr]

/-- C1 (amended): for any sequence of `SyncFullRuleGroups` calls from any
manager state, if the fan-out of the last call returns no error, the tenants
with an engine after the last call are exactly the keys of the last map that
had an engine before that call or for which, during that call, the mapper
succeeded and the notifier existed or was configured successfully. Hence they
are all keys of the last map, and they are exactly its keys when no such
failure occurs. -/
theorem C1_full_sync_convergence (calls : List (Oracle × Context × GoMap RuleGroupList))
    (o : Oracle) (ctx : Context) (m : GoMap RuleGroupList) (r0 : DefaultMultiTenantManager)
    (h : fanOutError ctx m.keys = none) :
    (∀ u, (SyncFullSeq (calls ++ [(o, ctx, m)]) r0).userManagers.has u = true ↔
        (m.has u = true ∧
          ((SyncFullSeq calls r0).userManagers.has u = true ∨
            canCreate o (SyncFullSeq calls r0) u
              (((gated (SyncFullSeq calls r0) m).get u).getD []) = true))) ∧
    (∀ u, (SyncFullSeq (calls ++ [(o, ctx, m)]) r0).userManagers.has u = true →
        u ∈ m.keys) ∧
    ((∀ u, u ∈ m.keys →
        canCreate o (SyncFullSeq calls r0) u
          (((gated (SyncFullSeq calls r0) m).get u).getD []) = true) →
      ∀ u, u ∈ (SyncFullSeq (calls ++ [(o, ctx, m)]) r0).userManagers.keys ↔ u ∈ m.keys) := by
  have key : ∀ u, (SyncFullSeq (calls ++ [(o, ctx, m)]) r0).userManagers.has u = true ↔
        (m.has u = true ∧
          ((SyncFullSeq calls r0).userManagers.has u = true ∨
            canCreate o (SyncFullSeq calls r0) u
              (((gated (SyncFullSeq calls r0) m).get u).getD []) = true)) := by
    intro u
    rw [SyncFullSeq_append, SyncFullRuleGroups_has o ctx _ m u h]
    simp
  refine ⟨key, ?_, ?_⟩
  · intro u hu
    exact (mem_keys m u).mpr ((key u).mp hu).1
  · intro hall u
    rw [mem_keys, ← has_eq, key u, mem_keys, ← has_eq]
    constructor
    · exact fun hh => hh.1
    · intro hm
      exact ⟨hm, Or.inr (hall u ((mem_keys m u).mpr hm))⟩

/-- C1 (amended), at a concrete input: two full syncs from a fresh manager,
the first with map `B`, the second with map `A`; afterwards `A` has an engine
and `B` has none. -/
theorem C1_full_sync_convergence_witness :
    fanOutError background (GoMap.keys ([("A", [plainGroup])] : GoMap RuleGroupList)) = none ∧
    (SyncFullSeq ([(okOracle, background, [("B", [plainGroup])])] ++
        [(okOracle, background, [("A", [plainGroup])])]) freshManager).userManagers.has "A" =
      true ∧
    ¬ ((SyncFullSeq ([(okOracle, background, [("B", [plainGroup])])] ++
        [(okOracle, background, [("A", [plainGroup])])]) freshManager).userManagers.has "B" =
      true) :=
  ⟨by decide,
    ((C1_full_sync_convergence [(okOracle, background, [("B", [plainGroup])])] okOracle
      background [("A", [plainGroup])] freshManager (by decide)).1 "A").mpr
        ⟨by decide, Or.inr (by decide)⟩,
    fun hB => absurd
      ((C1_full_sync_convergence [(okOracle, background, [("B", [plainGroup])])] okOracle
        background [("A", [plainGroup])] freshManager (by decide)).2.1 "B" hB) (by decide)⟩

/-- C2, as stated, fails: a full sync of the tenants `A` and `C` whose context
is canceled returns with the engine of tenant `B` still in place although `B`
is not a key of the map. -/
theorem C2_counterexample :
    (SyncFullRuleGroups okOracle canceled managerWithB mapAC).1.userManagers.has "B" = true ∧
      GoMap.has mapAC "B" = false ∧ GoMap.keys mapAC = ["A", "C"] := by
  decide

/-- C2 (amended): for every manager state, context and map, if the fan-out of
`SyncFullRuleGroups` returns no error (the context is not canceled, or the map
has at most one key), then after the call no engine exists for a tenant that is not a key
of the map; mapper, notifier or engine failures do not change this. -/
theorem C2_full_sync_no_stale_engine (o : Oracle) (ctx : Context)
    (r : DefaultMultiTenantManager) (m : GoMap RuleGroupList) (u : String)
    (h : fanOutError ctx m.keys = none) (hu : m.has u = false) :
    (SyncFullRuleGroups o ctx r m).1.userManagers.get u = none := by
  have h1 := SyncFullRuleGroups_has o ctx r m u h
  rw [hu] at h1
  simpa [has_eq] using h1

/-- C2 (amended), at a concrete input: tenant `B` loses its engine. -/
theorem C2_full_sync_no_stale_engine_witness :
    (SyncFullRuleGroups mapFailOracle background managerWithB
      [("A", [plainGroup])]).1.userManagers.get "B" = none :=
  C2_full_sync_no_stale_engine mapFailOracle background managerWithB [("A", [plainGroup])] "B"
    (by decide) (by decide)

/-! ## C3: partial sync -/

/-- C3, as stated, fails: a partial sync with rules for the tenants `A` and
`C` whose context is canceled leaves the engine of tenant `B` in place
although `B` is supplied with an empty group list; and with federation
disabled a partial sync removes the engine of `B` although the supplied list
of `B` is not empty (it holds a federated group). -/
theorem C3_counterexample :
    ((SyncPartialRuleGroups okOracle canceled managerWithB
        (("B", []) :: mapAC)).1.userManagers.has "B" = true ∧
      GoMap.get ((("B", []) :: mapAC) : GoMap RuleGroupList) "B" = some []) ∧
    ((SyncPartialRuleGroups okOracle background managerWithB
        [("B", [federatedGroup])]).1.userManagers.has "B" = false ∧
      managerWithB.userManagers.has "B" = true ∧
      GoMap.get ([("B", [federatedGroup])] : GoMap RuleGroupList) "B" ≠ some []) := by
  decide

/-- C3 (amended): in `SyncPartialRuleGroups` a tenant absent from the map keeps
its whole per-tenant state (same engine record, so no `Run` or `Update` call,
same metric series, registry and notifier, no mapper call); and when the
fan-out returns no error, a tenant that had an engine before the call has none
afterwards if and only if it is a key of the map whose group list is empty
once the federation filter has been applied. -/
theorem C3_partial_sync_removal (o : Oracle) (ctx : Context) (r : DefaultMultiTenantManager)
    (m : GoMap RuleGroupList) (u : String) :
    (m.has u = false → view (SyncPartialRuleGroups o ctx r m).1 u = view r u) ∧
    (fanOutError ctx (filterRuleGroupsByNotEmptyUsers (gated r m)).1.keys = none →
      r.userManagers.has u = true →
      ((SyncPartialRuleGroups o ctx r m).1.userManagers.has u = false ↔
        (gated r m).get u = some [])) := by
  have hhas : ∀ s : DefaultMultiTenantManager, s.userManagers.has u = (view s u).engine.isSome :=
    fun _ => rfl
  constructor
  · intro hu
    have hg : (gated r m).get u = none := by
      have := gated_has r m u
      rw [hu, has_eq] at this
      simpa using this
    by_cases h : fanOutError ctx (filterRuleGroupsByNotEmptyUsers (gated r m)).1.keys = none
    · rw [SyncPartialRuleGroups_view o ctx r m u h, hg]
      simp
    · rw [SyncPartialRuleGroups_view_canceled o ctx r m u h, if_neg]
      intro hc
      have := (filter_filtered_mem_keys (gated r m) u).mp (started_subset ctx _ u hc)
      rw [hg] at this
      exact this rfl
  · intro h hr
    rw [hhas, SyncPartialRuleGroups_view o ctx r m u h]
    by_cases hne : ((gated r m).get u).getD [] ≠ []
    · rw [if_pos hne, syncRulesToManager_engine_isSome, hr]
      have : (gated r m).get u ≠ some [] := fun hc => hne (by rw [hc]; rfl)
      simp [this]
    · rw [if_neg hne]
      by_cases he : (gated r m).get u = some []
      · rw [if_pos ⟨he, hr⟩]
        simp [he, TenantView.removed]
      · rw [if_neg (fun hc => he hc.1), ← hhas, hr]
        simp [he]

/-- C3 (amended), at a concrete input: tenant `B`, supplied with an empty list,
loses its engine. -/
theorem C3_partial_sync_removal_witness :
    (SyncPartialRuleGroups okOracle background managerWithB
        [("B", []), ("A", [plainGroup])]).1.userManagers.has "B" = false ↔
      (gated managerWithB [("B", []), ("A", [plainGroup])]).get "B" = some [] :=
  (C3_partial_sync_removal okOracle background managerWithB
    [("B", []), ("A", [plainGroup])] "B").2 (by decide) (by decide)

/-! ## C4: federation filter -/

/-- C4, as stated, fails whatever `removeFederatedRuleGroups` does: the helper
is handed the caller's map and returns nothing, and the map it leaves is the
one that is synced. For the map with one federated group under tenant `A`, no
behaviour of the helper both leaves the caller's map as it was and keeps the
federated group away from the mapper. -/
theorem C4_counterexample :
    ¬ ∃ rm : GoMap RuleGroupList → GoMap RuleGroupList,
      (SyncFullRuleGroupsWith rm okOracle background freshManager
          [("A", [federatedGroup])]).2 = [("A", [federatedGroup])] ∧
        ∀ c ∈ (SyncFullRuleGroupsWith rm okOracle background freshManager
          [("A", [federatedGroup])]).1.mapper, c.federationFree = true := by
  rintro ⟨rm, h1, h2⟩
  have hm : rm [("A", [federatedGroup])] = [("A", [federatedGroup])] := by
    have : (SyncFullRuleGroupsWith rm okOracle background freshManager
        [("A", [federatedGroup])]).2 = rm [("A", [federatedGroup])] := by
      unfold SyncFullRuleGroupsWith
      simp only [freshManager, NewDefaultMultiTenantManager]
      split <;> rfl
    rw [this] at h1
    exact h1
  have hmem : MapperCall.MapRules "A" [federatedGroup] ∈
      (SyncFullRuleGroupsWith rm okOracle background freshManager
        [("A", [federatedGroup])]).1.mapper := by
    unfold SyncFullRuleGroupsWith
    simp only [freshManager, NewDefaultMultiTenantManager, Bool.not_false, if_true, hm]
    decide
  have := h2 _ hmem
  revert this
  decide

/-- C4 (amended): with tenant federation disabled, for every input map,
`SyncFullRuleGroups` and `SyncPartialRuleGroups` never hand the mapper a rule
group with a non-empty source-tenants list (every mapper call with such a group
in the log after the sync was in the log before it), and an engine is handed
at most the files the mapper returned for the filtered groups of its tenant.
The filter works in place: when the call returns the caller's map has the
same keys, and under each key the groups of the supplied list whose
source-tenants list is empty, in the same order. -/
theorem C4_federation_filter (o : Oracle) (ctx : Context) (r : DefaultMultiTenantManager)
    (m : GoMap RuleGroupList) (h : r.federationEnabled = false) :
    (∀ c ∈ (SyncFullRuleGroups o ctx r m).1.mapper, c ∈ r.mapper ∨ c.federationFree = true) ∧
    (∀ c ∈ (SyncPartialRuleGroups o ctx r m).1.mapper, c ∈ r.mapper ∨ c.federationFree = true) ∧
    (∀ u, updatesOf ((SyncFullRuleGroups o ctx r m).1.userManagers.get u) =
          updatesOf (r.userManagers.get u) ∨
        updatesOf ((SyncFullRuleGroups o ctx r m).1.userManagers.get u) = [] ∨
        ∃ upd files,
          o.MapRules u (((m.get u).getD []).filter (fun g => g.SourceTenants.isEmpty)) =
            some (upd, files) ∧
          updatesOf ((SyncFullRuleGroups o ctx r m).1.userManagers.get u) =
            files :: updatesOf (r.userManagers.get u)) ∧
    (∀ u, updatesOf ((SyncPartialRuleGroups o ctx r m).1.userManagers.get u) =
          updatesOf (r.userManagers.get u) ∨
        updatesOf ((SyncPartialRuleGroups o ctx r m).1.userManagers.get u) = [] ∨
        ∃ upd files,
          o.MapRules u (((m.get u).getD []).filter (fun g => g.SourceTenants.isEmpty)) =
            some (upd, files) ∧
          updatesOf ((SyncPartialRuleGroups o ctx r m).1.userManagers.get u) =
            files :: updatesOf (r.userManagers.get u)) ∧
    (SyncFullRuleGroups o ctx r m).2 = (SyncPartialRuleGroups o ctx r m).2 ∧
    (SyncFullRuleGroups o ctx r m).2.keys = m.keys ∧
    (∀ u, (SyncFullRuleGroups o ctx r m).2.get u =
      (m.get u).map (fun gs => gs.filter (fun g => g.SourceTenants.isEmpty))) := by
  have hgd : ∀ u, ((gated r m).get u).getD [] =
      ((m.get u).getD []).filter (fun g => g.SourceTenants.isEmpty) := by
    intro u
    rw [gated_get, h]
    cases m.get u <;> simp
  have free : ∀ c : MapperCall, c ∈ r.mapper ∨ c = MapperCall.cleanupUser c.tenant ∨
      c = MapperCall.MapRules c.tenant (((gated r m).get c.tenant).getD []) →
      c ∈ r.mapper ∨ c.federationFree = true := by
    intro c hc
    rcases hc with h1 | h1 | h1
    · exact Or.inl h1
    · right; rw [h1]; rfl
    · right; rw [h1]; exact gated_federationFree r m _ h
  refine ⟨?_, ?_, ?_, ?_, ?_, ?_, ?_⟩
  · intro c hc
    exact free c (mapper_of_view_cases o r _ (fun u => ((gated r m).get u).getD [])
      (fun u => SyncFullRuleGroups_view_cases o ctx r m u) c hc)
  · intro c hc
    exact free c (mapper_of_view_cases o r _ (fun u => ((gated r m).get u).getD [])
      (fun u => SyncPartialRuleGroups_view_cases o ctx r m u) c hc)
  · intro u
    rw [← hgd u]
    exact updates_of_view_cases o r _ _ u (SyncFullRuleGroups_view_cases o ctx r m u)
  · intro u
    rw [← hgd u]
    exact updates_of_view_cases o r _ _ u (SyncPartialRuleGroups_view_cases o ctx r m u)
  · rw [SyncFullRuleGroups_eq, SyncPartialRuleGroups_eq]
  · rw [SyncFullRuleGroups_eq]
    exact gated_keys r m
  · intro u
    rw [SyncFullRuleGroups_eq]
    simp only []
    rw [gated_get, h]
    simp

/-- C4 (amended), at a concrete input: a map mixing a federated and a plain
group for tenant `A`, federation disabled; the caller finds only the plain
group in its map afterwards. -/
theorem C4_federation_filter_witness :
    freshManager.federationEnabled = false ∧
    (SyncFullRuleGroups okOracle background freshManager
        [("A", [federatedGroup, plainGroup])]).2.keys =
      GoMap.keys ([("A", [federatedGroup, plainGroup])] : GoMap RuleGroupList) ∧
    (SyncFullRuleGroups okOracle background freshManager
        [("A", [federatedGroup, plainGroup])]).2.get "A" =
      (GoMap.get ([("A", [federatedGroup, plainGroup])] : GoMap RuleGroupList) "A").map
        (fun gs => gs.filter (fun g => g.SourceTenants.isEmpty)) :=
  ⟨by decide,
    (C4_federation_filter okOracle background freshManager [("A", [federatedGroup, plainGroup])]
      (by decide)).2.2.2.2.2.1,
    (C4_federation_filter okOracle background freshManager [("A", [federatedGroup, plainGroup])]
      (by decide)).2.2.2.2.2.2 "A"⟩

/-! ## C5: rule group validation -/

theorem foldl_validate_inner (name : String) (i : Nat) (ruleName : String) (errs : List String)
    (acc : List ValidationError) :
    errs.foldl (fun acc1 err => acc1 ++ [ValidationError.rule name i ruleName err]) acc = [] ↔
      acc = [] ∧ errs = [] := by
  induction errs generalizing acc with
  | nil => simp
  | cons e errs ih =>
    rw [List.foldl_cons, ih]
    simp

theorem foldl_validate_outer (Validate : RuleNode → List String) (name : String)
    (rules : List RuleNode) (n : Nat) (acc : List ValidationError) :
    (rules.enumFrom n).foldl (fun acc ir =>
      (Validate ir.2).foldl (fun acc1 err =>
        let ruleName := if ir.2.Alert ≠ "" then ir.2.Alert else ir.2.Record
        acc1 ++ [ValidationError.rule name ir.1 ruleName err]) acc) acc = [] ↔
      acc = [] ∧ ∀ rule ∈ rules, Validate rule = [] := by
  induction rules generalizing n acc with
  | nil => simp
  | cons a rules ih =>
    rw [List.enumFrom_cons, List.foldl_cons, ih]
    simp only []
    rw [foldl_validate_inner]
    simp [and_assoc]

/-- C5: `ValidateRuleGroup` is total, and the list it returns is empty if and
only if the group name is non-empty, the group has at least one rule, the
group has no source tenants or tenant federation is enabled, and no rule of
the group has a validation error. -/
theorem C5_ValidateRuleGroup_empty_iff (Validate : RuleNode → List String)
    (r : DefaultMultiTenantManager) (g : RuleGroup) :
    ValidateRuleGroup Validate r g = [] ↔
      (g.Name ≠ "" ∧ g.Rules ≠ [] ∧ (g.SourceTenants = [] ∨ r.federationEnabled = true) ∧
        ∀ rule ∈ g.Rules, Validate rule = []) := by
  unfold ValidateRuleGroup
  by_cases hn : g.Name = ""
  · simp [hn]
  · by_cases hr : g.Rules = []
    · simp [hn, hr]
    · have hlen : ¬ (g.Rules.length = 0) := by simpa using hr
      simp only [hn, hlen, if_false]
      rw [foldl_validate_outer]
      cases hf : r.federationEnabled <;> by_cases hs : g.SourceTenants = [] <;>
        simp [hn, hr, hs, List.length_pos]

/-! ## C6: start before sync -/

theorem syncRulesToManagerConcurrently_rulerIsRunning (o : Oracle) (ctx : Context)
    (r : DefaultMultiTenantManager) (g : GoMap RuleGroupList) :
    (syncRulesToManagerConcurrently o ctx r g).1.rulerIsRunning = r.rulerIsRunning := by
  rw [syncRulesToManagerConcurrently_eq]
  exact (syncAll_globals o g _ r).2.2.2.2.1

theorem SyncFullRuleGroups_rulerIsRunning (o : Oracle) (ctx : Context)
    (r : DefaultMultiTenantManager) (m : GoMap RuleGroupList) :
    (SyncFullRuleGroups o ctx r m).1.rulerIsRunning = r.rulerIsRunning := by
  rw [SyncFullRuleGroups_eq]
  simp only []
  split
  · rw [(removeUsersIf_globals _ _).2.2.2.2.1]
    exact syncRulesToManagerConcurrently_rulerIsRunning o ctx r _
  · exact syncRulesToManagerConcurrently_rulerIsRunning o ctx r _

theorem SyncPartialRuleGroups_rulerIsRunning (o : Oracle) (ctx : Context)
    (r : DefaultMultiTenantManager) (m : GoMap RuleGroupList) :
    (SyncPartialRuleGroups o ctx r m).1.rulerIsRunning = r.rulerIsRunning := by
  rw [SyncPartialRuleGroups_eq]
  simp only []
  split
  · rw [(removeUsersIf_globals _ _).2.2.2.2.1]
    exact syncRulesToManagerConcurrently_rulerIsRunning o ctx r _
  · exact syncRulesToManagerConcurrently_rulerIsRunning o ctx r _

theorem runs_of_view_cases (o : Oracle) (r s : DefaultMultiTenantManager) (g : RuleGroupList)
    (u : String) (hrun : s.rulerIsRunning = r.rulerIsRunning)
    (hinv : ∀ e, r.userManagers.get u = some e → e.runs = expectedRuns r)
    (h : view s u = view (syncRulesToManager o r u g) u ∨
      view s u = (view r u).removed u ∨ view s u = view r u)
    (e' : RulesManager) (he : s.userManagers.get u = some e') : e'.runs = expectedRuns s := by
  have hs : s.userManagers.get u = (view s u).engine := rfl
  have hexp : expectedRuns s = expectedRuns r := by unfold expectedRuns; rw [hrun]
  rw [hexp]
  rw [hs] at he
  rcases h with h1 | h1 | h1
  · rw [h1] at he
    rcases syncRulesToManager_runs o r u g e' he with ⟨e, h2, h3⟩ | ⟨_, h3⟩
    · rw [h3]; exact hinv e h2
    · rw [h3]; unfold expectedRuns; cases r.rulerIsRunning <;> rfl
  · rw [h1] at he
    exact absurd he (by simp [TenantView.removed])
  · rw [h1] at he
    exact hinv e' he

theorem Start_get (r : DefaultMultiTenantManager) (u : String) :
    (Start r).userManagers.get u =
      if r.rulerIsRunning = true then r.userManagers.get u
      else (r.userManagers.get u).map (fun e => { e with runs := e.runs + 1 }) := by
  unfold Start
  cases h : r.rulerIsRunning
  · simp only [Bool.false_eq_true, if_false]
    exact get_map (fun _ e => { e with runs := e.runs + 1 }) r.userManagers u
  · simp

theorem Start_rulerIsRunning (r : DefaultMultiTenantManager) :
    (Start r).rulerIsRunning = true := by
  unfold Start
  cases h : r.rulerIsRunning <;> simp [h]

theorem Op_apply_runs (op : Op) (r : DefaultMultiTenantManager)
    (hinv : ∀ u e, r.userManagers.get u = some e → e.runs = expectedRuns r) :
    ∀ u e, (op.apply r).userManagers.get u = some e → e.runs = expectedRuns (op.apply r) := by
  intro u e he
  cases op with
  | syncFull o ctx m =>
    exact runs_of_view_cases o r _ _ u (SyncFullRuleGroups_rulerIsRunning o ctx r m) (hinv u)
      (SyncFullRuleGroups_view_cases o ctx r m u) e he
  | syncPartial o ctx m =>
    exact runs_of_view_cases o r _ _ u (SyncPartialRuleGroups_rulerIsRunning o ctx r m) (hinv u)
      (SyncPartialRuleGroups_view_cases o ctx r m u) e he
  | start =>
    simp only [Op.apply] at he ⊢
    rw [Start_get] at he
    unfold expectedRuns
    rw [Start_rulerIsRunning]
    cases hr : r.rulerIsRunning
    · rw [hr] at he
      simp only [Bool.false_eq_true, if_false, Option.map_eq_some'] at he
      obtain ⟨e0, h0, h1⟩ := he
      have := hinv u e0 h0
      unfold expectedRuns at this
      rw [hr] at this
      rw [← h1]
      simp [this]
    · rw [hr] at he
      simp only [if_true] at he
      have := hinv u e he
      unfold expectedRuns at this
      rw [hr] at this
      simpa using this

theorem runOps_runs (ops : List Op) (r : DefaultMultiTenantManager)
    (hinv : ∀ u e, r.userManagers.get u = some e → e.runs = expectedRuns r) :
    ∀ u e, (runOps ops r).userManagers.get u = some e → e.runs = expectedRuns (runOps ops r) := by
  induction ops generalizing r with
  | nil => exact hinv
  | cons op ops ih =>
    simp only [runOps, List.foldl_cons]
    exact ih (op.apply r) (Op_apply_runs op r hinv)

theorem getOrCreateManager_created (o : Oracle) (s s' : DefaultMultiTenantManager) (u : String)
    (e : RulesManager) (h : getOrCreateManager o s u = (s', .ok (e, true))) :
    s.userManagers.get u = none ∧ e.runs = expectedRuns s ∧ s'.userManagers.get u = some e := by
  unfold getOrCreateManager newManager getOrCreateNotifier at h
  unfold expectedRuns
  revert h
  cases hE : s.userManagers.get u with
  | some e0 => simp
  | none =>
    cases hN : s.notifiers.get u with
    | some n =>
      cases hR : s.rulerIsRunning <;> simp [hR, managerFactory] <;> intro h1 h2 <;>
        simp [← h1, ← h2, get_set]
    | none =>
      cases hA : o.applyConfig u s.notifierCfg <;> cases hR : s.rulerIsRunning <;>
        simp [hR, managerFactory] <;> intro h1 h2 <;> simp [← h1, ← h2, get_set]

/-- C6: in every state reached from a new manager by sync and `Start` calls,
every engine in `userManagers` has had `Run` scheduled once if the manager is
running and never if it is not; an engine created by `getOrCreateManager` is
scheduled at creation exactly when the manager is running; `Start` sets the
running flag, keeps the set of engines and, when the manager was not running,
schedules `Run` once more on every engine; `Start` on a running manager
changes nothing, so a second `Start` is a no-op. -/
theorem C6_start_before_sync (federationEnabled : Bool) (httpPrefix : String)
    (discoveryConfigs : GoMap DiscoveryConfig) (notifierCfg : NotifierConfig) (ops : List Op) :
    (∀ u e, (runOps ops (NewDefaultMultiTenantManager federationEnabled httpPrefix
        discoveryConfigs notifierCfg)).userManagers.get u = some e →
      e.runs = expectedRuns (runOps ops (NewDefaultMultiTenantManager federationEnabled
        httpPrefix discoveryConfigs notifierCfg))) ∧
    (∀ (s s' : DefaultMultiTenantManager) (o : Oracle) (u : String) (e : RulesManager),
      getOrCreateManager o s u = (s', .ok (e, true)) →
        s.userManagers.get u = none ∧ e.runs = expectedRuns s ∧
          s'.userManagers.get u = some e) ∧
    (∀ s : DefaultMultiTenantManager, (Start s).rulerIsRunning = true) ∧
    (∀ (s : DefaultMultiTenantManager) (u : String), s.rulerIsRunning = false →
      (Start s).userManagers.get u =
        (s.userManagers.get u).map (fun e => { e with runs := e.runs + 1 })) ∧
    (∀ s : DefaultMultiTenantManager, s.rulerIsRunning = true → Start s = s) ∧
    (∀ s : DefaultMultiTenantManager, Start (Start s) = Start s) := by
  refine ⟨?_, ?_, Start_rulerIsRunning, ?_, ?_, ?_⟩
  · exact runOps_runs ops _ (by intro u e h; simp [NewDefaultMultiTenantManager, GoMap.get] at h)
  · intro s s' o u e h
    exact getOrCreateManager_created o s s' u e h
  · intro s u h
    rw [Start_get, h]
    simp
  · intro s h
    unfold Start
    simp [h]
  · intro s
    have h := Start_rulerIsRunning s
    generalize Start s = t at h
    unfold Start
    simp [h]

/-- C6, at a concrete input: a sync before `Start`, then `Start`, then a sync
creating a second engine, then a second `Start`; both engines have been
scheduled exactly once. -/
theorem C6_start_before_sync_witness :
    (runOps [Op.syncFull okOracle background [("A", [plainGroup])], Op.start,
        Op.syncFull okOracle background [("A", [plainGroup]), ("B", [plainGroup])], Op.start]
      (NewDefaultMultiTenantManager false "/alertmanager" [] ⟨[]⟩)).userManagers.get "B" =
        some { user := "B", runs := 1, updates := [["B/rules"]] } ∧
    ({ user := "B", runs := 1, updates := [["B/rules"]] } : RulesManager).runs =
      expectedRuns (runOps [Op.syncFull okOracle background [("A", [plainGroup])], Op.start,
        Op.syncFull okOracle background [("A", [plainGroup]), ("B", [plainGroup])], Op.start]
      (NewDefaultMultiTenantManager false "/alertmanager" [] ⟨[]⟩)) :=
  ⟨by decide,
    (C6_start_before_sync false "/alertmanager" [] ⟨[]⟩
      [Op.syncFull okOracle background [("A", [plainGroup])], Op.start,
        Op.syncFull okOracle background [("A", [plainGroup]), ("B", [plainGroup])],
        Op.start]).1 "B" _ (by decide)⟩

/-! ## C7: discovery configuration -/

theorem updateNotifierConfig_discoveryConfigs (o : Oracle) (r : DefaultMultiTenantManager) :
    (updateNotifierConfig o r).discoveryConfigs = r.discoveryConfigs := by
  unfold updateNotifierConfig
  cases o.buildNotifierConfig r.discoveryConfigs <;> rfl

/-- C7, as stated, fails: `InstanceAdded` of an instance that is not in use
leaves the discovery configuration without an entry under the key of the
instance. -/
theorem C7_counterexample :
    idleInstance.InUse = false ∧
    (InstanceAdded okOracle freshManager idleInstance).discoveryConfigs.get
      ("http://" ++ idleInstance.Address ++ freshManager.alertmanagerHTTPPrefix) = none ∧
    "http://" ++ idleInstance.Address ++ freshManager.alertmanagerHTTPPrefix =
      "http://10.0.0.2:9094/alertmanager" := by
  decide

/-- C7 (amended): with `K = "http://" ++ i.Address ++ httpPrefix`, after
`InstanceAdded` or `InstanceChanged` of an instance in use the discovery
configuration holds the entry of the instance address under `K`;
`InstanceAdded` of an instance not in use changes nothing; after
`InstanceRemoved`, or `InstanceChanged` of an instance not in use, the
discovery configuration holds no entry under `K`; and the three calls leave
every other key as it was. -/
theorem C7_discovery_config_key (o : Oracle) (r : DefaultMultiTenantManager) (i : Instance) :
    (i.InUse = true →
      (InstanceAdded o r i).discoveryConfigs.get
          ("http://" ++ i.Address ++ r.alertmanagerHTTPPrefix) =
        some (NewDiscoveryConfig i.Address) ∧
      (InstanceChanged o r i).discoveryConfigs.get
          ("http://" ++ i.Address ++ r.alertmanagerHTTPPrefix) =
        some (NewDiscoveryConfig i.Address)) ∧
    (InstanceRemoved o r i).discoveryConfigs.get
        ("http://" ++ i.Address ++ r.alertmanagerHTTPPrefix) = none ∧
    (i.InUse = false →
      (InstanceChanged o r i).discoveryConfigs.get
        ("http://" ++ i.Address ++ r.alertmanagerHTTPPrefix) = none) ∧
    (∀ k, k ≠ "http://" ++ i.Address ++ r.alertmanagerHTTPPrefix →
      (InstanceAdded o r i).discoveryConfigs.get k = r.discoveryConfigs.get k ∧
      (InstanceRemoved o r i).discoveryConfigs.get k = r.discoveryConfigs.get k ∧
      (InstanceChanged o r i).discoveryConfigs.get k = r.discoveryConfigs.get k) ∧
    (i.InUse = false → InstanceAdded o r i = r) := by
  have hrem : ∀ k, (InstanceRemoved o r i).discoveryConfigs.get k =
      if "http://" ++ i.Address ++ r.alertmanagerHTTPPrefix = k then none
      else r.discoveryConfigs.get k := by
    intro k
    unfold InstanceRemoved
    rw [updateNotifierConfig_discoveryConfigs]
    exact get_delete _ _ _
  have hadd : ∀ k, (InstanceAdded o r i).discoveryConfigs.get k =
      if i.InUse = true then
        (if "http://" ++ i.Address ++ r.alertmanagerHTTPPrefix = k then
          some (NewDiscoveryConfig i.Address) else r.discoveryConfigs.get k)
      else r.discoveryConfigs.get k := by
    intro k
    unfold InstanceAdded
    cases hi : i.InUse
    · simp
    · simp only [if_true]
      rw [updateNotifierConfig_discoveryConfigs]
      exact get_set _ _ _ _
  have hchg : InstanceChanged o r i =
      if i.InUse = true then InstanceAdded o r i else InstanceRemoved o r i := rfl
  refine ⟨?_, ?_, ?_, ?_, ?_⟩
  · intro hi
    rw [hchg, if_pos hi, hadd, if_pos hi, if_pos rfl]
    exact ⟨rfl, rfl⟩
  · rw [hrem, if_pos rfl]
  · intro hi
    rw [hchg, hi]
    simp only [Bool.false_eq_true, if_false]
    rw [hrem, if_pos rfl]
  · intro k hk
    have hk' : ¬ ("http://" ++ i.Address ++ r.alertmanagerHTTPPrefix = k) := fun h => hk h.symm
    refine ⟨?_, ?_, ?_⟩
    · rw [hadd, if_neg hk']; simp
    · rw [hrem, if_neg hk']
    · rw [hchg]
      cases hi : i.InUse
      · simp only [Bool.false_eq_true, if_false]; rw [hrem, if_neg hk']
      · simp only [if_true]; rw [hadd, if_neg hk']; simp
  · intro hi
    unfold InstanceAdded
    simp [hi]

/-- C7 (amended), at a concrete input: adding the instance `10.0.0.1:9094` to a fresh
manager with prefix `/alertmanager`. -/
theorem C7_discovery_config_key_witness :
    (InstanceAdded okOracle freshManager sampleInstance).discoveryConfigs.get
        "http://10.0.0.1:9094/alertmanager" = some (NewDiscoveryConfig "10.0.0.1:9094") ∧
      (InstanceChanged okOracle freshManager sampleInstance).discoveryConfigs.get
        "http://10.0.0.1:9094/alertmanager" = some (NewDiscoveryConfig "10.0.0.1:9094") :=
  (C7_discovery_config_key okOracle freshManager sampleInstance).1 (by decide)

/-! ## C8: no-op suppression -/

/-- C8, as stated, fails: `SyncFullRuleGroups` issued twice in a row with the
same map increments `config_updates_total` of tenant `A` on the second call
when the first call did not leave an engine for `A`: because its context was
canceled (the map has the tenants `A` and `C`), or because the notifier of
`A` could not be configured, in which case the second call increments the
counter although the mapper reports `changed = false`. -/
theorem C8_counterexample :
    ((SyncFullRuleGroups okOracle canceled freshManager mapAC).1.configUpdatesTotal.get "A" =
        none ∧
      (SyncFullRuleGroups okOracle background
          (SyncFullRuleGroups okOracle canceled freshManager mapAC).1
          mapAC).1.configUpdatesTotal.get "A" = some 1) ∧
    ((SyncFullRuleGroups notifierFailOracle background freshManager
          [("A", [plainGroup])]).1.configUpdatesTotal.get "A" = none ∧
      (SyncFullRuleGroups unchangedOracle background
          (SyncFullRuleGroups notifierFailOracle background freshManager
            [("A", [plainGroup])]).1
          [("A", [plainGroup])]).1.configUpdatesTotal.get "A" = some 1) := by
  decide

theorem SyncFullRuleGroups_unchanged (o : Oracle) (ctx : Context)
    (r : DefaultMultiTenantManager) (m : GoMap RuleGroupList) (u : String) (e : RulesManager)
    (files : List String) (hE : r.userManagers.get u = some e) (hm : m.has u = true)
    (hM : o.MapRules u (((gated r m).get u).getD []) = some (false, files)) :
    (SyncFullRuleGroups o ctx r m).1.userManagers.get u = some e ∧
      (SyncFullRuleGroups o ctx r m).1.configUpdatesTotal.get u = r.configUpdatesTotal.get u := by
  have hstep := syncRulesToManager_unchanged o r u _ e files hE hM
  have hv : view (SyncFullRuleGroups o ctx r m).1 u =
        view (syncRulesToManager o r u (((gated r m).get u).getD [])) u ∨
      view (SyncFullRuleGroups o ctx r m).1 u = view r u := by
    by_cases h : fanOutError ctx (gated r m).keys = none
    · rw [SyncFullRuleGroups_view o ctx r m u h, gated_has, if_pos hm]
      exact Or.inl rfl
    · rw [SyncFullRuleGroups_view_canceled o ctx r m u h]
      split
      · exact Or.inl rfl
      · exact Or.inr rfl
  have h1 : (SyncFullRuleGroups o ctx r m).1.userManagers.get u =
      (view (SyncFullRuleGroups o ctx r m).1 u).engine := rfl
  have h2 : (SyncFullRuleGroups o ctx r m).1.configUpdatesTotal.get u =
      (view (SyncFullRuleGroups o ctx r m).1 u).configUpdatesTotal := rfl
  rw [h1, h2]
  rcases hv with hv | hv
  · rw [hv, hstep]
    exact ⟨hE, rfl⟩
  · rw [hv]
    exact ⟨hE, rfl⟩

/-- C8 (amended): for every tenant that already has an engine and for which
the mapper reports `changed = false`, `syncRulesToManager` makes no `Update`
call (the engine record is the same) and leaves `config_updates_total` of the
tenant as it was; so, when `SyncFullRuleGroups` is issued twice in a row with
the same map, the second call makes no `Update` call and does not increment
`config_updates_total` for any tenant of the map that has an engine after the
first call and for which the mapper reports `changed = false` in the second
call. -/
theorem C8_no_op_suppression (o1 o2 : Oracle) (ctx1 ctx2 : Context)
    (r : DefaultMultiTenantManager) (m : GoMap RuleGroupList) (u : String) (e : RulesManager)
    (files : List String) :
    (∀ g : RuleGroupList, r.userManagers.get u = some e → o2.MapRules u g = some (false, files) →
      (syncRulesToManager o2 r u g).userManagers.get u = some e ∧
      (syncRulesToManager o2 r u g).configUpdatesTotal.get u = r.configUpdatesTotal.get u) ∧
    ((SyncFullRuleGroups o1 ctx1 r m).1.userManagers.get u = some e → m.has u = true →
      o2.MapRules u (((gated (SyncFullRuleGroups o1 ctx1 r m).1
        (SyncFullRuleGroups o1 ctx1 r m).2).get u).getD []) = some (false, files) →
      (SyncFullRuleGroups o2 ctx2 (SyncFullRuleGroups o1 ctx1 r m).1
          (SyncFullRuleGroups o1 ctx1 r m).2).1.userManagers.get u = some e ∧
      (SyncFullRuleGroups o2 ctx2 (SyncFullRuleGroups o1 ctx1 r m).1
          (SyncFullRuleGroups o1 ctx1 r m).2).1.configUpdatesTotal.get u =
        (SyncFullRuleGroups o1 ctx1 r m).1.configUpdatesTotal.get u) := by
  constructor
  · intro g hE hM
    have hstep := syncRulesToManager_unchanged o2 r u g e files hE hM
    have h1 : (syncRulesToManager o2 r u g).userManagers.get u =
        (view (syncRulesToManager o2 r u g) u).engine := rfl
    have h2 : (syncRulesToManager o2 r u g).configUpdatesTotal.get u =
        (view (syncRulesToManager o2 r u g) u).configUpdatesTotal := rfl
    rw [h1, h2, hstep]
    exact ⟨hE, rfl⟩
  · intro hE hm hM
    have hm2 : (SyncFullRuleGroups o1 ctx1 r m).2.has u = true := by
      rw [SyncFullRuleGroups_eq]
      simp only []
      rw [gated_has]
      exact hm
    exact SyncFullRuleGroups_unchanged o2 ctx2 _ _ u e files hE hm2 hM

/-- C8 (amended), at a concrete input: the same map synced twice from a fresh
manager, the mapper finding the files unchanged the second time. -/
theorem C8_no_op_suppression_witness :
    (SyncFullRuleGroups unchangedOracle background
        (SyncFullRuleGroups okOracle background freshManager [("A", [plainGroup])]).1
        (SyncFullRuleGroups okOracle background freshManager
          [("A", [plainGroup])]).2).1.userManagers.get "A" =
      some { user := "A", runs := 0, updates := [["A/rules"]] } ∧
    (SyncFullRuleGroups unchangedOracle background
        (SyncFullRuleGroups okOracle background freshManager [("A", [plainGroup])]).1
        (SyncFullRuleGroups okOracle background freshManager
          [("A", [plainGroup])]).2).1.configUpdatesTotal.get "A" =
      (SyncFullRuleGroups okOracle background freshManager
        [("A", [plainGroup])]).1.configUpdatesTotal.get "A" :=
  (C8_no_op_suppression okOracle unchangedOracle background background freshManager
    [("A", [plainGroup])] "A" { user := "A", runs := 0, updates := [["A/rules"]] }
    ["A/rules"]).2 (by decide) (by decide) (by decide)

/-! ## C9: removal of per-tenant state -/

/-- C9, as stated, fails: a full sync of the tenants `A` and `C` whose context
is canceled returns with the engine and the `config_updates_total` series of
tenant `B` in place, although the deletion predicate holds for `B`; and tenant
`A`, whose only sync failed in the mapper, has a `last_reload_successful`
series and no engine, and keeps that series through the full sync with the
empty map, because `removeUsersIf` only visits tenants with an engine. -/
theorem C9_counterexample :
    (GoMap.has mapAC "B" = false ∧
      (SyncFullRuleGroups okOracle canceled managerWithB mapAC).1.userManagers.has "B" = true ∧
      (SyncFullRuleGroups okOracle canceled managerWithB mapAC).1.configUpdatesTotal.get "B" =
        some 1) ∧
    ((SyncFullRuleGroups mapFailOracle background freshManager
        [("A", [plainGroup])]).1.lastReloadSuccessful.get "A" = some 0 ∧
      GoMap.has ([] : GoMap RuleGroupList) "A" = false ∧
      (SyncFullRuleGroups okOracle background
        (SyncFullRuleGroups mapFailOracle background freshManager [("A", [plainGroup])]).1
        []).1.lastReloadSuccessful.get "A" = some 0) := by
  decide

theorem SyncFullRuleGroups_managersTotal (o : Oracle) (ctx : Context)
    (r : DefaultMultiTenantManager) (m : GoMap RuleGroupList) :
    (SyncFullRuleGroups o ctx r m).1.managersTotal =
      (SyncFullRuleGroups o ctx r m).1.userManagers.len := by
  rw [SyncFullRuleGroups_eq]
  simp only []
  split
  · exact removeUsersIf_managersTotal _ _
  · exact syncRulesToManagerConcurrently_managersTotal o ctx r _

theorem SyncPartialRuleGroups_managersTotal (o : Oracle) (ctx : Context)
    (r : DefaultMultiTenantManager) (m : GoMap RuleGroupList) :
    (SyncPartialRuleGroups o ctx r m).1.managersTotal =
      (SyncPartialRuleGroups o ctx r m).1.userManagers.len := by
  rw [SyncPartialRuleGroups_eq]
  simp only []
  split
  · exact removeUsersIf_managersTotal _ _
  · exact syncRulesToManagerConcurrently_managersTotal o ctx r _

theorem fields_of_removed_view (s r : DefaultMultiTenantManager) (u : String)
    (h : view s u = (view r u).removed u) :
    s.userManagers.get u = none ∧
    s.lastReloadSuccessful.get u = none ∧
    s.lastReloadSuccessfulTimestamp.get u = none ∧
    s.configUpdatesTotal.get u = none ∧
    s.userManagerMetrics.get u = none ∧
    MapperCall.cleanupUser u ∈ s.mapper := by
  have hc : MapperCall.cleanupUser u ∈ s.mapper := by
    rw [mem_mapper_iff, tenant_cleanupUser, h]
    exact List.mem_cons_self _ _
  have e1 : s.userManagers.get u = (view s u).engine := rfl
  have e2 : s.lastReloadSuccessful.get u = (view s u).lastReloadSuccessful := rfl
  have e3 : s.lastReloadSuccessfulTimestamp.get u =
      (view s u).lastReloadSuccessfulTimestamp := rfl
  have e4 : s.configUpdatesTotal.get u = (view s u).configUpdatesTotal := rfl
  have e5 : s.userManagerMetrics.get u = (view s u).registry := rfl
  rw [e1, e2, e3, e4, e5, h]
  exact ⟨rfl, rfl, rfl, rfl, rfl, hc⟩

/-- The step `syncRulesToManager` never drops an engine, a series or a
registry of its tenant. -/
theorem syncRulesToManager_keeps (o : Oracle) (r : DefaultMultiTenantManager) (u : String)
    (g : RuleGroupList) :
    (r.userManagers.has u = true → (syncRulesToManager o r u g).userManagers.has u = true) ∧
    (r.lastReloadSuccessful.has u = true →
      (syncRulesToManager o r u g).lastReloadSuccessful.has u = true) ∧
    (r.lastReloadSuccessfulTimestamp.has u = true →
      (syncRulesToManager o r u g).lastReloadSuccessfulTimestamp.has u = true) ∧
    (r.configUpdatesTotal.has u = true →
      (syncRulesToManager o r u g).configUpdatesTotal.has u = true) ∧
    (r.userManagerMetrics.has u = true →
      (syncRulesToManager o r u g).userManagerMetrics.has u = true) := by
  unfold syncRulesToManager getOrCreateManager newManager getOrCreateNotifier
  simp only [has_eq]
  cases hM : o.MapRules u g with
  | none => simp [get_set]
  | some p =>
    obtain ⟨upd, files⟩ := p
    cases hE : r.userManagers.get u with
    | some e => cases upd <;> cases hU : o.Update u files <;> simp [hU, hE, get_set]
    | none =>
      cases hN : r.notifiers.get u with
      | some n => cases upd <;> cases hU : o.Update u files <;> simp [hU, hE, hN, get_set]
      | none =>
        cases hA : o.applyConfig u r.notifierCfg <;> cases upd <;> cases hU : o.Update u files <;>
          simp [hU, hE, hN, hA, get_set]

theorem keeps_of_view (o : Oracle) (r s : DefaultMultiTenantManager) (u : String)
    (g : RuleGroupList)
    (h : view s u = view (syncRulesToManager o r u g) u ∨ view s u = view r u) :
    (r.userManagers.has u = true → s.userManagers.has u = true) ∧
    (r.lastReloadSuccessful.has u = true → s.lastReloadSuccessful.has u = true) ∧
    (r.lastReloadSuccessfulTimestamp.has u = true →
      s.lastReloadSuccessfulTimestamp.has u = true) ∧
    (r.configUpdatesTotal.has u = true → s.configUpdatesTotal.has u = true) ∧
    (r.userManagerMetrics.has u = true → s.userManagerMetrics.has u = true) := by
  have e1 : ∀ x : DefaultMultiTenantManager,
      x.userManagers.has u = (view x u).engine.isSome := fun _ => rfl
  have e2 : ∀ x : DefaultMultiTenantManager,
      x.lastReloadSuccessful.has u = (view x u).lastReloadSuccessful.isSome := fun _ => rfl
  have e3 : ∀ x : DefaultMultiTenantManager,
      x.lastReloadSuccessfulTimestamp.has u =
        (view x u).lastReloadSuccessfulTimestamp.isSome := fun _ => rfl
  have e4 : ∀ x : DefaultMultiTenantManager,
      x.configUpdatesTotal.has u = (view x u).configUpdatesTotal.isSome := fun _ => rfl
  have e5 : ∀ x : DefaultMultiTenantManager,
      x.userManagerMetrics.has u = (view x u).registry.isSome := fun _ => rfl
  rcases h with h | h
  · have hk := syncRulesToManager_keeps o r u g
    rw [e1 s, e2 s, e3 s, e4 s, e5 s, h, ← e1, ← e2, ← e3, ← e4, ← e5]
    exact hk
  · rw [e1 s, e2 s, e3 s, e4 s, e5 s, h, ← e1, ← e2, ← e3, ← e4, ← e5]
    exact ⟨id, id, id, id, id⟩

/-- A tenant that a sync does not drop is either synced or left alone. -/
theorem view_of_not_dropped (o : Oracle) (ctx : Context) (r : DefaultMultiTenantManager)
    (m : GoMap RuleGroupList) (u : String) :
    (m.has u = true →
      view (SyncFullRuleGroups o ctx r m).1 u =
          view (syncRulesToManager o r u (((gated r m).get u).getD [])) u ∨
        view (SyncFullRuleGroups o ctx r m).1 u = view r u) ∧
    ((gated r m).get u ≠ some [] →
      view (SyncPartialRuleGroups o ctx r m).1 u =
          view (syncRulesToManager o r u (((gated r m).get u).getD [])) u ∨
        view (SyncPartialRuleGroups o ctx r m).1 u = view r u) := by
  constructor
  · intro hm
    by_cases h : fanOutError ctx (gated r m).keys = none
    · rw [SyncFullRuleGroups_view o ctx r m u h, gated_has, if_pos hm]
      exact Or.inl rfl
    · rw [SyncFullRuleGroups_view_canceled o ctx r m u h]
      split
      · exact Or.inl rfl
      · exact Or.inr rfl
  · intro hne
    by_cases h : fanOutError ctx (filterRuleGroupsByNotEmptyUsers (gated r m)).1.keys = none
    · rw [SyncPartialRuleGroups_view o ctx r m u h]
      split
      · exact Or.inl rfl
      · rw [if_neg (fun hc => hne hc.1)]
        exact Or.inr rfl
    · rw [SyncPartialRuleGroups_view_canceled o ctx r m u h]
      split
      · exact Or.inl rfl
      · exact Or.inr rfl

/-- C9 (amended): a sync whose fan-out returned no error removes all per-tenant
state of every tenant that has an engine and for which its deletion predicate
holds (full sync: the tenant is not a key of the map; partial sync: the tenant
has an empty group list once the federation filter has been applied): after
the sync the tenant has no entry in `userManagers`, no
`last_reload_successful`, `last_reload_successful_seconds` or
`config_updates_total` series, no metrics registry, and `cleanupUser` has been
called for its rule files. A tenant for which the predicate is false keeps its
engine, its series and its registry through the sync. `managers_total` equals
the number of remaining engines after every full or partial sync. The same
holds of `removeUsersIf` alone, for any predicate, where a tenant for which
the predicate is false keeps its whole per-tenant state. -/
theorem C9_metric_cleanup (r : DefaultMultiTenantManager) (shouldRemove : String → Bool)
    (o : Oracle) (ctx : Context) (m : GoMap RuleGroupList) (u : String) :
    (r.userManagers.has u = true → shouldRemove u = true →
      (removeUsersIf r shouldRemove).userManagers.get u = none ∧
      (removeUsersIf r shouldRemove).lastReloadSuccessful.get u = none ∧
      (removeUsersIf r shouldRemove).lastReloadSuccessfulTimestamp.get u = none ∧
      (removeUsersIf r shouldRemove).configUpdatesTotal.get u = none ∧
      (removeUsersIf r shouldRemove).userManagerMetrics.get u = none ∧
      MapperCall.cleanupUser u ∈ (removeUsersIf r shouldRemove).mapper) ∧
    (shouldRemove u = false → view (removeUsersIf r shouldRemove) u = view r u) ∧
    (removeUsersIf r shouldRemove).managersTotal =
      (removeUsersIf r shouldRemove).userManagers.len ∧
    (SyncFullRuleGroups o ctx r m).1.managersTotal =
      (SyncFullRuleGroups o ctx r m).1.userManagers.len ∧
    (SyncPartialRuleGroups o ctx r m).1.managersTotal =
      (SyncPartialRuleGroups o ctx r m).1.userManagers.len ∧
    (fanOutError ctx m.keys = none → r.userManagers.has u = true → m.has u = false →
      view (SyncFullRuleGroups o ctx r m).1 u = (view r u).removed u) ∧
    (fanOutError ctx m.keys = none → r.userManagers.has u = true → m.has u = false →
      (SyncFullRuleGroups o ctx r m).1.userManagers.get u = none ∧
      (SyncFullRuleGroups o ctx r m).1.lastReloadSuccessful.get u = none ∧
      (SyncFullRuleGroups o ctx r m).1.lastReloadSuccessfulTimestamp.get u = none ∧
      (SyncFullRuleGroups o ctx r m).1.configUpdatesTotal.get u = none ∧
      (SyncFullRuleGroups o ctx r m).1.userManagerMetrics.get u = none ∧
      MapperCall.cleanupUser u ∈ (SyncFullRuleGroups o ctx r m).1.mapper) ∧
    (fanOutError ctx (filterRuleGroupsByNotEmptyUsers (gated r m)).1.keys = none →
      r.userManagers.has u = true → (gated r m).get u = some [] →
      view (SyncPartialRuleGroups o ctx r m).1 u = (view r u).removed u ∧
      (SyncPartialRuleGroups o ctx r m).1.userManagers.get u = none ∧
      (SyncPartialRuleGroups o ctx r m).1.lastReloadSuccessful.get u = none ∧
      (SyncPartialRuleGroups o ctx r m).1.lastReloadSuccessfulTimestamp.get u = none ∧
      (SyncPartialRuleGroups o ctx r m).1.configUpdatesTotal.get u = none ∧
      (SyncPartialRuleGroups o ctx r m).1.userManagerMetrics.get u = none ∧
      MapperCall.cleanupUser u ∈ (SyncPartialRuleGroups o ctx r m).1.mapper) ∧
    (m.has u = true →
      (r.userManagers.has u = true →
        (SyncFullRuleGroups o ctx r m).1.userManagers.has u = true) ∧
      (r.lastReloadSuccessful.has u = true →
        (SyncFullRuleGroups o ctx r m).1.lastReloadSuccessful.has u = true) ∧
      (r.lastReloadSuccessfulTimestamp.has u = true →
        (SyncFullRuleGroups o ctx r m).1.lastReloadSuccessfulTimestamp.has u = true) ∧
      (r.configUpdatesTotal.has u = true →
        (SyncFullRuleGroups o ctx r m).1.configUpdatesTotal.has u = true) ∧
      (r.userManagerMetrics.has u = true →
        (SyncFullRuleGroups o ctx r m).1.userManagerMetrics.has u = true)) ∧
    ((gated r m).get u ≠ some [] →
      (r.userManagers.has u = true →
        (SyncPartialRuleGroups o ctx r m).1.userManagers.has u = true) ∧
      (r.lastReloadSuccessful.has u = true →
        (SyncPartialRuleGroups o ctx r m).1.lastReloadSuccessful.has u = true) ∧
      (r.lastReloadSuccessfulTimestamp.has u = true →
        (SyncPartialRuleGroups o ctx r m).1.lastReloadSuccessfulTimestamp.has u = true) ∧
      (r.configUpdatesTotal.has u = true →
        (SyncPartialRuleGroups o ctx r m).1.configUpdatesTotal.has u = true) ∧
      (r.userManagerMetrics.has u = true →
        (SyncPartialRuleGroups o ctx r m).1.userManagerMetrics.has u = true)) := by
  have hv := removeUsersIf_view r shouldRemove u
  have hfull : fanOutError ctx m.keys = none → r.userManagers.has u = true → m.has u = false →
      view (SyncFullRuleGroups o ctx r m).1 u = (view r u).removed u := by
    intro hf hr hm
    rw [SyncFullRuleGroups_view o ctx r m u (by rw [gated_keys]; exact hf), gated_has, hm]
    simp [hr]
  have hpart : fanOutError ctx (filterRuleGroupsByNotEmptyUsers (gated r m)).1.keys = none →
      r.userManagers.has u = true → (gated r m).get u = some [] →
      view (SyncPartialRuleGroups o ctx r m).1 u = (view r u).removed u := by
    intro hf hr hg
    rw [SyncPartialRuleGroups_view o ctx r m u hf, hg]
    simp [hr]
  refine ⟨?_, ?_, removeUsersIf_managersTotal r shouldRemove,
    SyncFullRuleGroups_managersTotal o ctx r m, SyncPartialRuleGroups_managersTotal o ctx r m,
    hfull, ?_, ?_, ?_, ?_⟩
  · intro h1 h2
    rw [if_pos ⟨h1, h2⟩] at hv
    exact fields_of_removed_view _ r u hv
  · intro hn
    rw [if_neg (fun hc => by rw [hn] at hc; exact Bool.false_ne_true hc.2)] at hv
    exact hv
  · intro hf hr hm
    exact fields_of_removed_view _ r u (hfull hf hr hm)
  · intro hf hr hg
    exact ⟨hpart hf hr hg, fields_of_removed_view _ r u (hpart hf hr hg)⟩
  · intro hm
    exact keeps_of_view o r _ u _ ((view_of_not_dropped o ctx r m u).1 hm)
  · intro hne
    exact keeps_of_view o r _ u _ ((view_of_not_dropped o ctx r m u).2 hne)

/-- C9 (amended), at a concrete input: a partial sync that supplies tenant `B`
with an empty list removes the entry, the series, the registry and the rule
files of `B`. -/
theorem C9_metric_cleanup_witness :
    (fanOutError background
        (filterRuleGroupsByNotEmptyUsers (gated managerWithB (("B", []) :: mapAC))).1.keys =
        none ∧
      managerWithB.userManagers.has "B" = true ∧
      (gated managerWithB (("B", []) :: mapAC)).get "B" = some []) ∧
    ((SyncPartialRuleGroups okOracle background managerWithB
        (("B", []) :: mapAC)).1.userManagers.get "B" = none ∧
      (SyncPartialRuleGroups okOracle background managerWithB
        (("B", []) :: mapAC)).1.lastReloadSuccessful.get "B" = none ∧
      (SyncPartialRuleGroups okOracle background managerWithB
        (("B", []) :: mapAC)).1.lastReloadSuccessfulTimestamp.get "B" = none ∧
      (SyncPartialRuleGroups okOracle background managerWithB
        (("B", []) :: mapAC)).1.configUpdatesTotal.get "B" = none ∧
      (SyncPartialRuleGroups okOracle background managerWithB
        (("B", []) :: mapAC)).1.userManagerMetrics.get "B" = none ∧
      MapperCall.cleanupUser "B" ∈ (SyncPartialRuleGroups okOracle background managerWithB
        (("B", []) :: mapAC)).1.mapper) :=
  ⟨by decide,
    ((C9_metric_cleanup managerWithB (fun _ => true) okOracle background (("B", []) :: mapAC)
      "B").2.2.2.2.2.2.2.1 (by decide) (by decide) (by decide)).2⟩

/-! ## C10: isolation of mapper failures -/

theorem view_mapError_fields (o : Oracle) (r s : DefaultMultiTenantManager) (u : String)
    (g : RuleGroupList) (hM : o.MapRules u g = none)
    (hv : view s u = view (syncRulesToManager o r u g) u) :
    s.lastReloadSuccessful.get u = some 0 ∧
    s.userManagers.get u = r.userManagers.get u ∧
    s.configUpdatesTotal.get u = r.configUpdatesTotal.get u := by
  rw [syncRulesToManager_mapError o r u g hM] at hv
  have e1 : s.lastReloadSuccessful.get u = (view s u).lastReloadSuccessful := rfl
  have e2 : s.userManagers.get u = (view s u).engine := rfl
  have e3 : s.configUpdatesTotal.get u = (view s u).configUpdatesTotal := rfl
  rw [e1, e2, e3, hv]
  exact ⟨rfl, rfl, rfl⟩

theorem syncRulesToManager_agreesFor (o o' : Oracle) (r : DefaultMultiTenantManager)
    (v : String) (g : RuleGroupList) (h : o.agreesFor o' v) :
    syncRulesToManager o r v g = syncRulesToManager o' r v g := by
  obtain ⟨h1, h2, h3, h4⟩ := h
  unfold syncRulesToManager getOrCreateManager newManager getOrCreateNotifier
  simp only [h1, h2, h3, h4]

theorem fanOutError_of_not_canceled (ctx : Context) (us : List String)
    (h : ctx.canceledAfter = none) : fanOutError ctx us = none := by
  unfold fanOutError
  rw [h]
  split <;> rfl

/-- C10, as stated, fails: in a full sync of the tenants `A` and `C` the mapper
fails for `A` and the cancellation of the context is observed after that first
job; the fan-out returns the context error and the sync never calls the mapper
for `C`. -/
theorem C10_counterexample :
    mapFailOracle.MapRules "A" [plainGroup] = none ∧
    GoMap.keys mapAC = ["A", "C"] ∧
    (syncRulesToManagerConcurrently mapFailOracle canceledAfterOne freshManager mapAC).2 =
      some Error.contextCanceled ∧
    (SyncFullRuleGroups mapFailOracle canceledAfterOne freshManager mapAC).1.mapper =
      [MapperCall.MapRules "A" [plainGroup]] := by
  decide

/-- C10 (amended): a mapper failure stays with its tenant. If `MapRules`
returns an error for a tenant whose job the fan-out started, then after the
fan-out, and after the full or partial sync around it, `last_reload_successful`
of the tenant is 0, its `userManagers` entry is what it was (no engine
created, no `Update` on an existing one) and its `config_updates_total` is
what it was. The failure changes nothing for the other tenants: the job
returns no error, so the error returned by the fan-out does not depend on
what the collaborators return, the mapper is called for every tenant whose
job was started, and the state in which a sync leaves a tenant depends only
on what the collaborators return for that tenant. When the context is not
canceled the fan-out returns no error and the sync calls the mapper for every
tenant of its work set. -/
theorem C10_mapper_failure_isolated (o : Oracle) (ctx : Context)
    (r : DefaultMultiTenantManager) (m : GoMap RuleGroupList) (u : String) :
    (u ∈ started ctx m.keys → o.MapRules u ((m.get u).getD []) = none →
      (syncRulesToManagerConcurrently o ctx r m).1.lastReloadSuccessful.get u = some 0 ∧
      (syncRulesToManagerConcurrently o ctx r m).1.userManagers.get u = r.userManagers.get u ∧
      (syncRulesToManagerConcurrently o ctx r m).1.configUpdatesTotal.get u =
        r.configUpdatesTotal.get u) ∧
    (u ∈ started ctx (gated r m).keys → o.MapRules u (((gated r m).get u).getD []) = none →
      (SyncFullRuleGroups o ctx r m).1.lastReloadSuccessful.get u = some 0 ∧
      (SyncFullRuleGroups o ctx r m).1.userManagers.get u = r.userManagers.get u ∧
      (SyncFullRuleGroups o ctx r m).1.configUpdatesTotal.get u = r.configUpdatesTotal.get u) ∧
    (u ∈ started ctx (filterRuleGroupsByNotEmptyUsers (gated r m)).1.keys →
      o.MapRules u (((gated r m).get u).getD []) = none →
      (SyncPartialRuleGroups o ctx r m).1.lastReloadSuccessful.get u = some 0 ∧
      (SyncPartialRuleGroups o ctx r m).1.userManagers.get u = r.userManagers.get u ∧
      (SyncPartialRuleGroups o ctx r m).1.configUpdatesTotal.get u =
        r.configUpdatesTotal.get u) ∧
    (∀ v ∈ started ctx m.keys, MapperCall.MapRules v ((m.get v).getD []) ∈
      (syncRulesToManagerConcurrently o ctx r m).1.mapper) ∧
    (∀ o' : Oracle, (syncRulesToManagerConcurrently o ctx r m).2 =
      (syncRulesToManagerConcurrently o' ctx r m).2) ∧
    (ctx.canceledAfter = none →
      (syncRulesToManagerConcurrently o ctx r m).2 = none ∧ started ctx m.keys = m.keys) ∧
    (∀ (o' : Oracle) (v : String), o.agreesFor o' v →
      view (syncRulesToManagerConcurrently o ctx r m).1 v =
        view (syncRulesToManagerConcurrently o' ctx r m).1 v) ∧
    (∀ (o' : Oracle) (v : String), o.agreesFor o' v →
      view (SyncFullRuleGroups o ctx r m).1 v = view (SyncFullRuleGroups o' ctx r m).1 v) ∧
    (∀ (o' : Oracle) (v : String), o.agreesFor o' v →
      view (SyncPartialRuleGroups o ctx r m).1 v =
        view (SyncPartialRuleGroups o' ctx r m).1 v) ∧
    (ctx.canceledAfter = none → ∀ v, m.has v = true →
      MapperCall.MapRules v (((gated r m).get v).getD []) ∈
        (SyncFullRuleGroups o ctx r m).1.mapper) ∧
    (ctx.canceledAfter = none → ∀ v, ((gated r m).get v).getD [] ≠ [] →
      MapperCall.MapRules v (((gated r m).get v).getD []) ∈
        (SyncPartialRuleGroups o ctx r m).1.mapper) := by
  refine ⟨?_, ?_, ?_, ?_, ?_, ?_, ?_, ?_, ?_, ?_, ?_⟩
  · intro hu hM
    have hv := syncRulesToManagerConcurrently_view o ctx r m u
    rw [if_pos hu] at hv
    exact view_mapError_fields o r _ u _ hM hv
  · intro hu hM
    have hmem : (gated r m).has u = true :=
      (mem_keys _ _).mp (started_subset ctx _ u hu)
    have hv : view (SyncFullRuleGroups o ctx r m).1 u =
        view (syncRulesToManager o r u (((gated r m).get u).getD [])) u := by
      by_cases h : fanOutError ctx (gated r m).keys = none
      · rw [SyncFullRuleGroups_view o ctx r m u h, if_pos hmem]
      · rw [SyncFullRuleGroups_view_canceled o ctx r m u h, if_pos hu]
    exact view_mapError_fields o r _ u _ hM hv
  · intro hu hM
    have hne : ((gated r m).get u).getD [] ≠ [] :=
      (filter_filtered_mem_keys _ _).mp (started_subset ctx _ u hu)
    have hv : view (SyncPartialRuleGroups o ctx r m).1 u =
        view (syncRulesToManager o r u (((gated r m).get u).getD [])) u := by
      by_cases h : fanOutError ctx (filterRuleGroupsByNotEmptyUsers (gated r m)).1.keys = none
      · rw [SyncPartialRuleGroups_view o ctx r m u h, if_pos hne]
      · rw [SyncPartialRuleGroups_view_canceled o ctx r m u h, if_pos hu]
    exact view_mapError_fields o r _ u _ hM hv
  · intro v hv
    have h := syncRulesToManagerConcurrently_view o ctx r m v
    rw [if_pos hv] at h
    rw [mem_mapper_iff, tenant_MapRules, h, syncRulesToManager_mapperCalls]
    exact List.mem_cons_self _ _
  · intro o'
    rw [syncRulesToManagerConcurrently_err, syncRulesToManagerConcurrently_err]
  · intro hc
    rw [syncRulesToManagerConcurrently_err]
    exact ⟨fanOutError_of_not_canceled ctx _ hc,
      started_of_fanOutError_none ctx _ (fanOutError_of_not_canceled ctx _ hc)⟩
  · intro o' v ha
    rw [syncRulesToManagerConcurrently_view o ctx r m v,
      syncRulesToManagerConcurrently_view o' ctx r m v, syncRulesToManager_agreesFor o o' r v _ ha]
  · intro o' v ha
    by_cases h : fanOutError ctx (gated r m).keys = none
    · rw [SyncFullRuleGroups_view o ctx r m v h, SyncFullRuleGroups_view o' ctx r m v h,
        syncRulesToManager_agreesFor o o' r v _ ha]
    · rw [SyncFullRuleGroups_view_canceled o ctx r m v h,
        SyncFullRuleGroups_view_canceled o' ctx r m v h,
        syncRulesToManager_agreesFor o o' r v _ ha]
  · intro o' v ha
    by_cases h : fanOutError ctx (filterRuleGroupsByNotEmptyUsers (gated r m)).1.keys = none
    · rw [SyncPartialRuleGroups_view o ctx r m v h, SyncPartialRuleGroups_view o' ctx r m v h,
        syncRulesToManager_agreesFor o o' r v _ ha]
    · rw [SyncPartialRuleGroups_view_canceled o ctx r m v h,
        SyncPartialRuleGroups_view_canceled o' ctx r m v h,
        syncRulesToManager_agreesFor o o' r v _ ha]
  · intro hc v hv
    have hf := fanOutError_of_not_canceled ctx (gated r m).keys hc
    have h := SyncFullRuleGroups_view o ctx r m v hf
    rw [gated_has, if_pos hv] at h
    rw [mem_mapper_iff, tenant_MapRules, h, syncRulesToManager_mapperCalls]
    exact List.mem_cons_self _ _
  · intro hc v hv
    have hf := fanOutError_of_not_canceled ctx
      (filterRuleGroupsByNotEmptyUsers (gated r m)).1.keys hc
    have h := SyncPartialRuleGroups_view o ctx r m v hf
    rw [if_pos hv] at h
    rw [mem_mapper_iff, tenant_MapRules, h, syncRulesToManager_mapperCalls]
    exact List.mem_cons_self _ _

/-- C10 (amended), at a concrete input: the mapper fails for every tenant of a
full sync of tenants `A` and `B`; tenant `B` keeps its engine untouched. -/
theorem C10_mapper_failure_isolated_witness :
    (SyncFullRuleGroups mapFailOracle background managerWithB
      [("A", [plainGroup]), ("B", [plainGroup])]).1.lastReloadSuccessful.get "B" = some 0 ∧
    (SyncFullRuleGroups mapFailOracle background managerWithB
      [("A", [plainGroup]), ("B", [plainGroup])]).1.userManagers.get "B" =
        managerWithB.userManagers.get "B" ∧
    (SyncFullRuleGroups mapFailOracle background managerWithB
      [("A", [plainGroup]), ("B", [plainGroup])]).1.configUpdatesTotal.get "B" =
        managerWithB.configUpdatesTotal.get "B" :=
  (C10_mapper_failure_isolated mapFailOracle background managerWithB
    [("A", [plainGroup]), ("B", [plainGroup])] "B").2.1 (by decide) (by decide)

/-! ## C11: the filter of empty tenants -/

theorem foldl_removed_none (m : GoMap RuleGroupList) (us : List String)
    (acc : Option (GoMap Unit)) :
    us.foldl (fun (removed : Option (GoMap Unit)) (userID : String) =>
        if ((m.get userID).getD []).length > 0 then removed
        else some ((removed.getD []).set userID ())) acc = none ↔
      (acc = none ∧ ∀ u ∈ us, (m.get u).getD [] ≠ []) := by
  induction us generalizing acc with
  | nil => simp
  | cons v us ih =>
    rw [List.foldl_cons, ih]
    by_cases hl : ((m.get v).getD []).length > 0
    · have hne : (m.get v).getD [] ≠ [] := fun h => by simp [h] at hl
      simp [hl, hne]
    · have he : (m.get v).getD [] = [] := by
        have : ((m.get v).getD []).length = 0 := by omega
        exact List.length_eq_zero.mp this
      simp [hl, he]

theorem filter_removed_eq (m : GoMap RuleGroupList) :
    (filterRuleGroupsByNotEmptyUsers m).2 =
      m.keys.foldl (fun (removed : Option (GoMap Unit)) (userID : String) =>
        if ((m.get userID).getD []).length > 0 then removed
        else some ((removed.getD []).set userID ())) none := by
  unfold filterRuleGroupsByNotEmptyUsers
  simp only []
  split <;> rfl

theorem filter_removed_none (m : GoMap RuleGroupList) :
    (filterRuleGroupsByNotEmptyUsers m).2 = none ↔ ∀ u, m.get u ≠ some [] := by
  rw [filter_removed_eq, foldl_removed_none]
  simp only [true_and]
  constructor
  · intro h u hu
    have hk : u ∈ m.keys := by rw [mem_keys, hu]; rfl
    exact h u hk (by rw [hu]; rfl)
  · intro h u hk hu
    rw [mem_keys] at hk
    cases hg : m.get u with
    | none => rw [hg] at hk; simp at hk
    | some gs =>
      rw [hg] at hu
      simp only [Option.getD_some] at hu
      exact h u (by rw [hg, hu])

theorem filter_filtered_eq_self (m : GoMap RuleGroupList) (h : ∀ u, m.get u ≠ some []) :
    (filterRuleGroupsByNotEmptyUsers m).1 = m := by
  have hn := (filter_removed_none m).mpr h
  rw [filter_removed_eq] at hn
  unfold filterRuleGroupsByNotEmptyUsers
  simp only []
  rw [hn]
  simp [GoMap.len, GoMap.keys]

/-- C11: for every map `configs`, `filterRuleGroupsByNotEmptyUsers` returns
`(filtered, removed)` where `removed` holds exactly the keys of `configs` whose
group list is empty and is `nil` exactly when there is no such key, and
`filtered` holds exactly the keys of `configs` whose group list is non-empty,
each with the group list it has in `configs`; when no key is removed,
`filtered` is `configs` itself. The function only reads `configs`: both
results are built in maps of their own. -/
theorem C11_filterRuleGroupsByNotEmptyUsers (configs : GoMap RuleGroupList) :
    (∀ u, ((filterRuleGroupsByNotEmptyUsers configs).2.getD []).has u = true ↔
      configs.get u = some []) ∧
    ((filterRuleGroupsByNotEmptyUsers configs).2 = none ↔ ∀ u, configs.get u ≠ some []) ∧
    (∀ u, u ∈ (filterRuleGroupsByNotEmptyUsers configs).1.keys ↔
      ∃ gs, configs.get u = some gs ∧ gs ≠ []) ∧
    (∀ u gs, configs.get u = some gs → gs ≠ [] →
      (filterRuleGroupsByNotEmptyUsers configs).1.get u = some gs) ∧
    (∀ u, (filterRuleGroupsByNotEmptyUsers configs).1.get u =
      if (configs.get u).getD [] = [] then none else configs.get u) ∧
    ((∀ u, configs.get u ≠ some []) → (filterRuleGroupsByNotEmptyUsers configs).1 = configs) := by
  refine ⟨filter_removed_has configs, filter_removed_none configs, ?_, ?_,
    filter_filtered_get configs, filter_filtered_eq_self configs⟩
  · intro u
    rw [filter_filtered_mem_keys]
    cases hg : configs.get u with
    | none => simp
    | some gs => simp
  · intro u gs hg hne
    rw [filter_filtered_get, hg]
    simp [hne]

/-- C11, at a concrete input: tenant `B`, with an empty list, is removed;
tenant `C` keeps its two groups. -/
theorem C11_filterRuleGroupsByNotEmptyUsers_witness :
    ((filterRuleGroupsByNotEmptyUsers sampleConfigs).2.getD []).has "B" = true ∧
    (filterRuleGroupsByNotEmptyUsers sampleConfigs).1.get "C" =
      some [federatedGroup, plainGroup] ∧
    (filterRuleGroupsByNotEmptyUsers [("A", [plainGroup])]).1 = [("A", [plainGroup])] :=
  ⟨((C11_filterRuleGroupsByNotEmptyUsers sampleConfigs).1 "B").mpr (by decide),
    (C11_filterRuleGroupsByNotEmptyUsers sampleConfigs).2.2.2.1 "C" _ (by decide) (by decide),
    (C11_filterRuleGroupsByNotEmptyUsers [("A", [plainGroup])]).2.2.2.2.2 (by
      intro u
      by_cases h : u = "A"
      · subst h; decide
      · have : ¬ ("A" = u) := fun hc => h hc.symm
        simp [GoMap.get, this])⟩
/-! ## C12: a failed update is not retried -/

theorem reportsUnchanged_iff (o : Oracle) (u : String) (g : RuleGroupList) :
    reportsUnchanged o u g = true ↔ ∃ files, o.MapRules u g = some (false, files) := by
  unfold reportsUnchanged
  cases h : o.MapRules u g with
  | none => simp
  | some p =>
    obtain ⟨upd, files⟩ := p
    cases upd <;> simp

/-- A failed `Update`: the engine is in `userManagers` and has received the
files, the counter has been incremented and `last_reload_successful` is 0. -/
theorem syncRulesToManager_updateError (o : Oracle) (r : DefaultMultiTenantManager) (u : String)
    (g : RuleGroupList) (upd : Bool) (files : List String)
    (hM : o.MapRules u g = some (upd, files)) (hU : o.Update u files = false)
    (hcall : (r.userManagers.has u = true ∧ upd = true) ∨
      (r.userManagers.has u = false ∧
        (r.notifiers.has u || o.applyConfig u r.notifierCfg) = true)) :
    (view (syncRulesToManager o r u g) u).engine.isSome = true ∧
    updatesOf (view (syncRulesToManager o r u g) u).engine = files :: updatesOf (view r u).engine ∧
    (view (syncRulesToManager o r u g) u).configUpdatesTotal =
      some (((view r u).configUpdatesTotal).getD 0 + 1) ∧
    (view (syncRulesToManager o r u g) u).lastReloadSuccessful = some 0 := by
  unfold syncRulesToManager getOrCreateManager newManager getOrCreateNotifier view updatesOf
  rw [has_eq, has_eq] at hcall
  cases hE : r.userManagers.get u with
  | some e =>
    rw [hE] at hcall
    have hupd : upd = true := by
      rcases hcall with h | h
      · exact h.2
      · simp at h
    subst hupd
    simp [hM, hU, hE, get_set]
  | none =>
    rw [hE] at hcall
    have hn : (r.notifiers.get u).isSome = true ∨ o.applyConfig u r.notifierCfg = true := by
      rcases hcall with h | h
      · simp at h
      · simpa using h.2
    cases hN : r.notifiers.get u with
    | some n =>
      cases upd <;> cases hR : r.rulerIsRunning <;>
        simp [hM, hU, hE, hN, get_set, managerFactory]
    | none =>
      have hA : o.applyConfig u r.notifierCfg = true := by
        rcases hn with h | h
        · rw [hN] at h; simp at h
        · exact h
      cases upd <;> cases hR : r.rulerIsRunning <;>
        simp [hM, hU, hE, hN, hA, get_set, managerFactory]

theorem view_updateError_fields (o : Oracle) (r s : DefaultMultiTenantManager) (u : String)
    (g : RuleGroupList) (upd : Bool) (files : List String)
    (hM : o.MapRules u g = some (upd, files)) (hU : o.Update u files = false)
    (hcall : (r.userManagers.has u = true ∧ upd = true) ∨
      (r.userManagers.has u = false ∧
        (r.notifiers.has u || o.applyConfig u r.notifierCfg) = true))
    (hv : view s u = view (syncRulesToManager o r u g) u) :
    s.userManagers.has u = true ∧
    updatesOf (s.userManagers.get u) = files :: updatesOf (r.userManagers.get u) ∧
    s.configUpdatesTotal.get u = some ((r.configUpdatesTotal.get u).getD 0 + 1) ∧
    s.lastReloadSuccessful.get u = some 0 := by
  have h := syncRulesToManager_updateError o r u g upd files hM hU hcall
  rw [← hv] at h
  exact h

/-- A sync that keeps the rules of a tenant with an engine either runs
`syncRulesToManager` for it, or leaves it alone. -/
theorem view_of_keepsRules (T : String) (s : DefaultMultiTenantManager) (o : Oracle)
    (ctx : Context) (m : GoMap RuleGroupList) :
    (Op.keepsRules T s (Op.syncFull o ctx m) = true →
      (view (SyncFullRuleGroups o ctx s m).1 T =
          view (syncRulesToManager o s T (((gated s m).get T).getD [])) T ∧
        reportsUnchanged o T (((gated s m).get T).getD []) = true) ∨
      view (SyncFullRuleGroups o ctx s m).1 T = view s T) ∧
    (Op.keepsRules T s (Op.syncPartial o ctx m) = true →
      (view (SyncPartialRuleGroups o ctx s m).1 T =
          view (syncRulesToManager o s T (((gated s m).get T).getD [])) T ∧
        reportsUnchanged o T (((gated s m).get T).getD []) = true) ∨
      view (SyncPartialRuleGroups o ctx s m).1 T = view s T) := by
  constructor
  · intro hk
    simp only [Op.keepsRules, Bool.and_eq_true] at hk
    by_cases h : fanOutError ctx (gated s m).keys = none
    · rw [SyncFullRuleGroups_view o ctx s m T h, gated_has, if_pos hk.1]
      exact Or.inl ⟨rfl, hk.2⟩
    · rw [SyncFullRuleGroups_view_canceled o ctx s m T h]
      split
      · exact Or.inl ⟨rfl, hk.2⟩
      · exact Or.inr rfl
  · intro hk
    simp only [Op.keepsRules] at hk
    cases hg : (gated s m).get T with
    | none =>
      right
      by_cases h : fanOutError ctx (filterRuleGroupsByNotEmptyUsers (gated s m)).1.keys = none
      · rw [SyncPartialRuleGroups_view o ctx s m T h, hg]
        simp
      · rw [SyncPartialRuleGroups_view_canceled o ctx s m T h, if_neg]
        intro hc
        have := (filter_filtered_mem_keys (gated s m) T).mp (started_subset ctx _ T hc)
        rw [hg] at this
        exact this rfl
    | some gs =>
      rw [hg] at hk
      cases gs with
      | nil => simp at hk
      | cons g0 gs =>
        simp only [] at hk
        have hne : ((gated s m).get T).getD [] ≠ [] := by rw [hg]; simp
        have hgd : ((gated s m).get T).getD [] = g0 :: gs := by rw [hg]; rfl
        by_cases h : fanOutError ctx (filterRuleGroupsByNotEmptyUsers (gated s m)).1.keys = none
        · rw [SyncPartialRuleGroups_view o ctx s m T h, if_pos hne, hgd]
          exact Or.inl ⟨rfl, hk⟩
        · rw [SyncPartialRuleGroups_view_canceled o ctx s m T h, hgd]
          split
          · exact Or.inl ⟨rfl, hk⟩
          · exact Or.inr rfl

theorem fields_of_unchanged_view (o : Oracle) (s s' : DefaultMultiTenantManager) (T : String)
    (g : RuleGroupList) (hE : s.userManagers.has T = true)
    (h : (view s' T = view (syncRulesToManager o s T g) T ∧ reportsUnchanged o T g = true) ∨
      view s' T = view s T) :
    s'.userManagers.get T = s.userManagers.get T ∧
    s'.lastReloadSuccessful.get T = s.lastReloadSuccessful.get T ∧
    s'.configUpdatesTotal.get T = s.configUpdatesTotal.get T := by
  have e1 : ∀ x : DefaultMultiTenantManager, x.userManagers.get T = (view x T).engine :=
    fun _ => rfl
  have e2 : ∀ x : DefaultMultiTenantManager,
      x.lastReloadSuccessful.get T = (view x T).lastReloadSuccessful := fun _ => rfl
  have e3 : ∀ x : DefaultMultiTenantManager,
      x.configUpdatesTotal.get T = (view x T).configUpdatesTotal := fun _ => rfl
  rw [e1 s', e2 s', e3 s', e1 s, e2 s, e3 s]
  rcases h with ⟨hv, hr⟩ | hv
  · obtain ⟨files, hM⟩ := (reportsUnchanged_iff o T g).mp hr
    rw [has_eq] at hE
    cases hG : s.userManagers.get T with
    | none => rw [hG] at hE; simp at hE
    | some e =>
      rw [hv, syncRulesToManager_unchanged o s T g e files hG hM]
      exact ⟨rfl, rfl, rfl⟩
  · rw [hv]
    exact ⟨rfl, rfl, rfl⟩

/-- One call that keeps the rules of a tenant with an engine: the engine stays
and receives no `Update`, and the series of the tenant are left as they were. -/
theorem Op_apply_keepsRules (T : String) (op : Op) (s : DefaultMultiTenantManager)
    (hE : s.userManagers.has T = true) (hk : op.keepsRules T s = true) :
    (op.apply s).userManagers.has T = true ∧
    updatesOf ((op.apply s).userManagers.get T) = updatesOf (s.userManagers.get T) ∧
    (op.apply s).lastReloadSuccessful.get T = s.lastReloadSuccessful.get T ∧
    (op.apply s).configUpdatesTotal.get T = s.configUpdatesTotal.get T := by
  cases op with
  | syncFull o ctx m =>
    have h := fields_of_unchanged_view o s (SyncFullRuleGroups o ctx s m).1 T _ hE
      ((view_of_keepsRules T s o ctx m).1 hk)
    simp only [Op.apply]
    rw [has_eq, h.1, ← has_eq]
    exact ⟨hE, rfl, h.2.1, h.2.2⟩
  | syncPartial o ctx m =>
    have h := fields_of_unchanged_view o s (SyncPartialRuleGroups o ctx s m).1 T _ hE
      ((view_of_keepsRules T s o ctx m).2 hk)
    simp only [Op.apply]
    rw [has_eq, h.1, ← has_eq]
    exact ⟨hE, rfl, h.2.1, h.2.2⟩
  | start =>
    simp only [Op.apply]
    have hg := Start_get s T
    have hl : (Start s).lastReloadSuccessful = s.lastReloadSuccessful := by
      unfold Start; cases s.rulerIsRunning <;> rfl
    have hc : (Start s).configUpdatesTotal = s.configUpdatesTotal := by
      unfold Start; cases s.rulerIsRunning <;> rfl
    rw [has_eq] at hE ⊢
    rw [hg, hl, hc]
    cases hG : s.userManagers.get T with
    | none => rw [hG] at hE; simp at hE
    | some e => cases s.rulerIsRunning <;> simp [updatesOf]

theorem runOps_keepsRules (T : String) (ops : List Op) (s : DefaultMultiTenantManager)
    (hE : s.userManagers.has T = true) (hk : rulesStayTheSame T ops s = true) :
    (runOps ops s).userManagers.has T = true ∧
    updatesOf ((runOps ops s).userManagers.get T) = updatesOf (s.userManagers.get T) ∧
    (runOps ops s).lastReloadSuccessful.get T = s.lastReloadSuccessful.get T ∧
    (runOps ops s).configUpdatesTotal.get T = s.configUpdatesTotal.get T := by
  induction ops generalizing s with
  | nil => exact ⟨hE, rfl, rfl, rfl⟩
  | cons op ops ih =>
    simp only [rulesStayTheSame, Bool.and_eq_true] at hk
    have h1 := Op_apply_keepsRules T op s hE hk.1
    have h2 := ih (op.apply s) h1.1 hk.2
    simp only [runOps, List.foldl_cons] at h2 ⊢
    exact ⟨h2.1, h2.2.1.trans h1.2.1, h2.2.2.1.trans h1.2.2.1, h2.2.2.2.trans h1.2.2.2⟩

/-- C12: a failed engine update is not retried while the rules stay the same.
If, during a full or a partial sync, `Update` is called for tenant `T` and
returns an error, then after that sync the engine of `T` is in `userManagers`
and has received the files, `config_updates_total` of `T` has been incremented
and `last_reload_successful` of `T` is 0. From any such state, through every
sequence of later calls (full syncs, partial syncs, `Start`) in which the
rules of `T` stay the same, that is the mapper reports `changed = false` for
`T` and `T` is not dropped, the engine of `T` stays in place and receives no
further `Update`, `last_reload_successful` of `T` remains 0 and
`config_updates_total` of `T` is not incremented. -/
theorem C12_failed_update_not_retried (T : String) :
    (∀ (o : Oracle) (ctx : Context) (r : DefaultMultiTenantManager) (m : GoMap RuleGroupList)
        (upd : Bool) (files : List String),
      T ∈ started ctx (gated r m).keys →
      o.MapRules T (((gated r m).get T).getD []) = some (upd, files) →
      o.Update T files = false →
      ((r.userManagers.has T = true ∧ upd = true) ∨
        (r.userManagers.has T = false ∧
          (r.notifiers.has T || o.applyConfig T r.notifierCfg) = true)) →
      (SyncFullRuleGroups o ctx r m).1.userManagers.has T = true ∧
      updatesOf ((SyncFullRuleGroups o ctx r m).1.userManagers.get T) =
        files :: updatesOf (r.userManagers.get T) ∧
      (SyncFullRuleGroups o ctx r m).1.configUpdatesTotal.get T =
        some ((r.configUpdatesTotal.get T).getD 0 + 1) ∧
      (SyncFullRuleGroups o ctx r m).1.lastReloadSuccessful.get T = some 0) ∧
    (∀ (o : Oracle) (ctx : Context) (r : DefaultMultiTenantManager) (m : GoMap RuleGroupList)
        (upd : Bool) (files : List String),
      T ∈ started ctx (filterRuleGroupsByNotEmptyUsers (gated r m)).1.keys →
      o.MapRules T (((gated r m).get T).getD []) = some (upd, files) →
      o.Update T files = false →
      ((r.userManagers.has T = true ∧ upd = true) ∨
        (r.userManagers.has T = false ∧
          (r.notifiers.has T || o.applyConfig T r.notifierCfg) = true)) →
      (SyncPartialRuleGroups o ctx r m).1.userManagers.has T = true ∧
      updatesOf ((SyncPartialRuleGroups o ctx r m).1.userManagers.get T) =
        files :: updatesOf (r.userManagers.get T) ∧
      (SyncPartialRuleGroups o ctx r m).1.configUpdatesTotal.get T =
        some ((r.configUpdatesTotal.get T).getD 0 + 1) ∧
      (SyncPartialRuleGroups o ctx r m).1.lastReloadSuccessful.get T = some 0) ∧
    (∀ (ops : List Op) (s : DefaultMultiTenantManager),
      s.userManagers.has T = true → s.lastReloadSuccessful.get T = some 0 →
      rulesStayTheSame T ops s = true →
      (runOps ops s).userManagers.has T = true ∧
      updatesOf ((runOps ops s).userManagers.get T) = updatesOf (s.userManagers.get T) ∧
      (runOps ops s).lastReloadSuccessful.get T = some 0 ∧
      (runOps ops s).configUpdatesTotal.get T = s.configUpdatesTotal.get T) := by
  refine ⟨?_, ?_, ?_⟩
  · intro o ctx r m upd files hu hM hU hcall
    have hmem : (gated r m).has T = true := (mem_keys _ _).mp (started_subset ctx _ T hu)
    have hv : view (SyncFullRuleGroups o ctx r m).1 T =
        view (syncRulesToManager o r T (((gated r m).get T).getD [])) T := by
      by_cases h : fanOutError ctx (gated r m).keys = none
      · rw [SyncFullRuleGroups_view o ctx r m T h, if_pos hmem]
      · rw [SyncFullRuleGroups_view_canceled o ctx r m T h, if_pos hu]
    exact view_updateError_fields o r _ T _ upd files hM hU hcall hv
  · intro o ctx r m upd files hu hM hU hcall
    have hne : ((gated r m).get T).getD [] ≠ [] :=
      (filter_filtered_mem_keys _ _).mp (started_subset ctx _ T hu)
    have hv : view (SyncPartialRuleGroups o ctx r m).1 T =
        view (syncRulesToManager o r T (((gated r m).get T).getD [])) T := by
      by_cases h : fanOutError ctx (filterRuleGroupsByNotEmptyUsers (gated r m)).1.keys = none
      · rw [SyncPartialRuleGroups_view o ctx r m T h, if_pos hne]
      · rw [SyncPartialRuleGroups_view_canceled o ctx r m T h, if_pos hu]
    exact view_updateError_fields o r _ T _ upd files hM hU hcall hv
  · intro ops s hE hL hk
    have h := runOps_keepsRules T ops s hE hk
    exact ⟨h.1, h.2.1, h.2.2.1.trans hL, h.2.2.2⟩

/-- C12, at a concrete input: the engine of tenant `A` rejects its first
update; through a full sync, `Start` and a partial sync with unchanged rules
the engine has still received that one update only and
`last_reload_successful` of `A` is still 0. -/
theorem C12_failed_update_not_retried_witness :
    (managerAfterFailedUpdate.userManagers.has "A" = true ∧
      managerAfterFailedUpdate.lastReloadSuccessful.get "A" = some 0 ∧
      rulesStayTheSame "A" laterCalls managerAfterFailedUpdate = true) ∧
    ((runOps laterCalls managerAfterFailedUpdate).userManagers.has "A" = true ∧
      updatesOf ((runOps laterCalls managerAfterFailedUpdate).userManagers.get "A") =
        updatesOf (managerAfterFailedUpdate.userManagers.get "A") ∧
      (runOps laterCalls managerAfterFailedUpdate).lastReloadSuccessful.get "A" = some 0 ∧
      (runOps laterCalls managerAfterFailedUpdate).configUpdatesTotal.get "A" =
        managerAfterFailedUpdate.configUpdatesTotal.get "A") :=
  ⟨by decide,
    (C12_failed_update_not_retried "A").2.2 laterCalls managerAfterFailedUpdate
      (by decide) (by decide) (by decide)⟩

end Ruler
